import Mathlib

/-!
# Open-Screen-Studio video editor: cursor track and zoom timeline

A shallow embedding of `CursorData.h`, `ZoomConfig.h`, `ZoomProcessor.h`, `CursorOverlay.h`
and of the rounded-corner composite of the frame loop in `Videoeditor.cpp`.

Numeric conventions of the embedding

* A C++ `double` is an exact rational number (`ℚ`): rounding, infinities and
  NaN are outside the model.  Division by a zero `double` is therefore outside
  the model too, and theorems that divide state the non-zero divisor.
* `int` and `int64_t` are mathematical integers (`Int`); where the 32-bit range
  of `int` matters a theorem states it with `isInt32`.
* `unsigned long` is the 32-bit unsigned type of the MSVC/Windows target this
  program is written for (`windows.h`, `shobjidl.h`): a natural number below
  `2^32`, with arithmetic and conversions taken modulo `2^32`.
* `static_cast<int>(double)` truncates toward zero (`truncToInt`); a value outside the
  range of `int`, and signed `int` overflow, are undefined in the source and outside the
  model.
* Calls into OpenCV and the C++ library (`cv::resize`, `cv::rectangle`, `cv::ellipse`,
  `cv::Mat::operator()`, `std::sqrt`) follow their documented contract; what the contract
  leaves open (interpolated pixel values, the ellipse raster, the square root) is a
  parameter.
-/

namespace OpenScreenStudio

/-! ## Machine-integer helpers -/

/-- The value range of a 32-bit `int`. -/
def isInt32 (z : Int) : Prop := -2147483648 ≤ z ∧ z ≤ 2147483647

instance (z : Int) : Decidable (isInt32 z) := by
  unfold isInt32
  exact inferInstance

/-- Conversion of a signed integer value to `unsigned long` (reduction modulo `2^32`).
It is also the result of an `unsigned long` subtraction or of an `int` addition
whose wrapped result is then converted to `unsigned long`. -/
def toULong (z : Int) : Nat := (z % 4294967296).toNat

/-- Conversion of an `unsigned long` to `int` (two's complement reinterpretation). -/
def toInt (n : Nat) : Int :=
  if n % 4294967296 < 2147483648 then ((n % 4294967296 : Nat) : Int)
  else ((n % 4294967296 : Nat) : Int) - 4294967296

/-- The conversion `static_cast<int>(double)` and `static_cast<int64_t>(double)`:
truncation toward zero. -/
def truncToInt (q : ℚ) : Int := Int.tdiv q.num (q.den : Int)

/-- The function `std::clamp` on doubles, as `std::min(std::max(v, lo), hi)` with
`std::max(v, lo) = (v < lo) ? lo : v` and `std::min(m, hi) = (hi < m) ? hi : m`.  For
`lo ≤ hi` every implementation returns this value.  Inverted bounds (`hi < lo`) are
undefined by the standard; the value here, always `hi`, is the one of the
`min`/`max` implementation, and MSVC's `(hi < v) ? hi : (v < lo) ? lo : v` gives the same
whenever `hi < v`. -/
def clampD (v lo hi : ℚ) : ℚ :=
  if hi < (if v < lo then lo else v) then hi else (if v < lo then lo else v)

/-- The function `std::clamp` on ints, as `std::min(std::max(v, lo), hi)`; see `clampD`
for inverted bounds. -/
def clampI (v lo hi : Int) : Int :=
  if hi < (if v < lo then lo else v) then hi else (if v < lo then lo else v)

/-! ## CursorData.h -/

/-- The struct `CursorPosition`. -/
structure CursorPosition where
  /-- Normalized x coordinate. -/
  x : ℚ
  /-- Normalized y coordinate. -/
  y : ℚ
  /-- Milliseconds since start (`int64_t`). -/
  timestamp : Int
  /-- Windows cursor type id (`int`). -/
  cursorType : Int
deriving DecidableEq, Repr

/-- The data members of class `CursorData`. -/
structure CursorData where
  /-- The vector `positions`. -/
  positions : List CursorPosition
  /-- Duration in milliseconds. -/
  videoDuration : ℚ
  /-- Video frame rate used for the frame to timestamp conversion. -/
  fps : ℚ
deriving Repr

/-- The loop of `std::lower_bound(first, first + count, ts, comp)` with the comparator
`comp(pos, ts) = pos.timestamp < ts` of `getPositionAtFrame`, on indices into `ps`.
Each iteration halves the range: `step = count / 2`, probe `first + step`, go right
when the comparator holds at the probe and left otherwise.  The first argument bounds
the number of iterations; `count` iterations are always enough.  The `none` branch
(probe outside the vector) is never reached when `first + count ≤ ps.length`. -/
def lowerBoundLoop (ps : List CursorPosition) (ts : ℚ) : Nat → Nat → Nat → Nat
  | 0, first, _ => first
  | fuel + 1, first, count =>
    if count = 0 then first
    else
      match ps[first + count / 2]? with
      | none => first
      | some p =>
        if (p.timestamp : ℚ) < ts then
          lowerBoundLoop ps ts fuel (first + count / 2 + 1) (count - (count / 2 + 1))
        else
          lowerBoundLoop ps ts fuel first (count / 2)

/-- The call `std::lower_bound(positions.begin(), positions.end(), timestamp, comp)`,
returned as an index (`positions.size()` stands for `positions.end()`). -/
def lowerBound (ps : List CursorPosition) (ts : ℚ) : Nat :=
  lowerBoundLoop ps ts ps.length 0 ps.length

/-- The method `CursorData::getPositionAtFrame(int frameIndex)`. -/
def getPositionAtFrame (cd : CursorData) (frameIndex : Int) : CursorPosition :=
  match cd.positions with
  | [] => { x := 1 / 2, y := 1 / 2, timestamp := 0, cursorType := 65539 }
  | p0 :: rest =>
    let timestamp : ℚ := ((frameIndex : ℚ) * 1000) / cd.fps
    let it := lowerBound (p0 :: rest) timestamp
    if it = 0 then p0
    else if it = (p0 :: rest).length then (p0 :: rest).getLast (List.cons_ne_nil p0 rest)
    else
      let next := (p0 :: rest).getD it p0
      let prev := (p0 :: rest).getD (it - 1) p0
      let t : ℚ := (timestamp - (prev.timestamp : ℚ)) /
        (((next.timestamp - prev.timestamp : Int)) : ℚ)
      { x := prev.x + t * (next.x - prev.x)
        y := prev.y + t * (next.y - prev.y)
        timestamp := truncToInt timestamp
        cursorType := next.cursorType }

/-! ## ZoomConfig.h -/

/-- The struct `ManualZoomLayer`. -/
structure ManualZoomLayer where
  /-- First frame of the layer (`int`). -/
  startFrame : Int
  /-- Last frame of the layer (`int`). -/
  endFrame : Int
  /-- Scale eased in at the layer start and held in the middle. -/
  startScale : ℚ
  /-- Scale the ease-out starts from. -/
  endScale : ℚ
  /-- Fixed pan target x. -/
  targetX : ℚ
  /-- Fixed pan target y. -/
  targetY : ℚ
deriving DecidableEq, Repr

/-- The struct `AutoZoomLayer`. -/
structure AutoZoomLayer where
  /-- First frame of the layer (`int`). -/
  startFrame : Int
  /-- Last frame of the layer (`int`). -/
  endFrame : Int
  /-- Minimum zoom scale. -/
  minScale : ℚ
  /-- Maximum zoom scale. -/
  maxScale : ℚ
  /-- How quickly to follow the cursor (never read by the processor). -/
  followSpeed : ℚ
  /-- Smoothing factor for cursor movement. -/
  smoothing : ℚ
deriving DecidableEq, Repr

/-- The enum `ZoomConfig::Type`. -/
inductive ZoomType where
  | Manual
  | Auto
deriving DecidableEq, Repr

/-- The struct `ZoomConfig`, restricted to the members the zoom processor can read
(the `defaults`, `cursor` and `background` members are not read by it). -/
structure ZoomConfig where
  /-- The zoom type tag. -/
  type : ZoomType
  /-- Manual layers in declaration order. -/
  manualLayers : List ManualZoomLayer
  /-- Auto layers in declaration order. -/
  autoLayers : List AutoZoomLayer
deriving Repr

/-- The method `ZoomConfig::getActiveManualLayer(int frameIndex)`: the first layer of the
scan with `frameIndex >= startFrame && frameIndex <= endFrame`. -/
def getActiveManualLayer (cfg : ZoomConfig) (frameIndex : Int) : Option ManualZoomLayer :=
  cfg.manualLayers.find? (fun layer =>
    decide (frameIndex ≥ layer.startFrame) && decide (frameIndex ≤ layer.endFrame))

/-- The method `ZoomConfig::getActiveAutoLayer(int frameIndex)`. -/
def getActiveAutoLayer (cfg : ZoomConfig) (frameIndex : Int) : Option AutoZoomLayer :=
  cfg.autoLayers.find? (fun layer =>
    decide (frameIndex ≥ layer.startFrame) && decide (frameIndex ≤ layer.endFrame))

/-! ## ZoomProcessor.h -/

/-- The constant `TRANSITION_FRAMES`. -/
def TRANSITION_FRAMES : Int := 30

/-- The anonymous struct `smoothedValues`. -/
structure SmoothedValues where
  /-- Smoothed pan x. -/
  lastX : ℚ
  /-- Smoothed pan y. -/
  lastY : ℚ
  /-- Smoothed scale. -/
  lastScale : ℚ
deriving DecidableEq, Repr

/-- The data members of class `ZoomProcessor`; `originalSize` is `(width, height)`. -/
structure ZoomProcessor where
  /-- Size of the first frame seen. -/
  originalSize : Int × Int
  /-- True until the first frame has been processed. -/
  firstFrame : Bool
  /-- The active configuration. -/
  config : ZoomConfig
  /-- The cursor track pointer (`none` for `nullptr`). -/
  cursorData : Option CursorData
  /-- The smoothing state of auto zoom. -/
  smoothedValues : SmoothedValues
deriving Repr

/-- The helper `smoothValue`. -/
def smoothValue (current target smoothing : ℚ) : ℚ :=
  current + (target - current) * (1 - smoothing)

/-- The helper `easeInOutQuad`: `t < 0.5 ? 2*t*t : 1 - pow(-2*t + 2, 2) / 2`. -/
def easeInOutQuad (t : ℚ) : ℚ :=
  if t < 1 / 2 then 2 * t * t else 1 - (-2 * t + 2) ^ 2 / 2

/-- The outputs `outScale`, `outTargetX`, `outTargetY` of `calculateAutoZoom`. -/
structure ZoomParams where
  /-- Camera scale. -/
  scale : ℚ
  /-- Pan target x. -/
  targetX : ℚ
  /-- Pan target y. -/
  targetY : ℚ
deriving DecidableEq, Repr

/-- The method `ZoomProcessor::calculateAutoZoom`.  The library function `std::sqrt` is
the parameter `sqrt`.  Returns the three outputs and the updated smoothing state.
`frameIndex` is an `unsigned long`: the two subtractions and the two comparisons
are carried out in `unsigned long`. -/
def calculateAutoZoom (sqrt : ℚ → ℚ) (sv : SmoothedValues) (layer : AutoZoomLayer)
    (cursorPos : CursorPosition) (frameIndex : Nat) : ZoomParams × SmoothedValues :=
  let startTransition : ℚ :=
    (toULong ((frameIndex : Int) - layer.startFrame) : ℚ) / (TRANSITION_FRAMES : ℚ)
  let endTransition : ℚ :=
    (toULong (layer.endFrame - (frameIndex : Int)) : ℚ) / (TRANSITION_FRAMES : ℚ)
  let startTransition := clampD startTransition 0 1
  let endTransition := clampD endTransition 0 1
  let lastX := smoothValue sv.lastX cursorPos.x layer.smoothing
  let lastY := smoothValue sv.lastY cursorPos.y layer.smoothing
  let dx := lastX - 1 / 2
  let dy := lastY - 1 / 2
  let distanceFromCenter := sqrt (dx * dx + dy * dy)
  let targetScale := layer.minScale + (layer.maxScale - layer.minScale) * (1 - distanceFromCenter)
  let targetScale := clampD targetScale layer.minScale layer.maxScale
  let lastScale := smoothValue sv.lastScale targetScale layer.smoothing
  let sv1 : SmoothedValues := { lastX := lastX, lastY := lastY, lastScale := lastScale }
  if frameIndex ≤ toULong (layer.startFrame + TRANSITION_FRAMES) then
    let t := easeInOutQuad startTransition
    ({ scale := 1 + (lastScale - 1) * t
       targetX := 1 / 2 + (lastX - 1 / 2) * t
       targetY := 1 / 2 + (lastY - 1 / 2) * t }, sv1)
  else if frameIndex ≥ toULong (layer.endFrame - TRANSITION_FRAMES) then
    let t := easeInOutQuad endTransition
    ({ scale := lastScale + (1 - lastScale) * (1 - t)
       targetX := lastX + (1 / 2 - lastX) * (1 - t)
       targetY := lastY + (1 / 2 - lastY) * (1 - t) }, sv1)
  else
    ({ scale := lastScale, targetX := lastX, targetY := lastY }, sv1)

/-- The method `ZoomProcessor::setConfig`: stores the configuration and resets the
smoothing state to `(0.5, 0.5, 1.0)`. -/
def setConfig (zp : ZoomProcessor) (newConfig : ZoomConfig) : ZoomProcessor :=
  { zp with config := newConfig, smoothedValues := { lastX := 1 / 2, lastY := 1 / 2, lastScale := 1 } }

/-- The method `ZoomProcessor::setCursorData`. -/
def setCursorData (zp : ZoomProcessor) (data : Option CursorData) : ZoomProcessor :=
  { zp with cursorData := data }

/-- The scale computed for an active manual layer (lines 107 to 131 of
`ZoomProcessor.h`).  The local `progress` of the source is computed there and never
read; it is left out. -/
def manualScale (manualLayer : ManualZoomLayer) (frameIndex : Nat) : ℚ :=
  let startTransition : ℚ :=
    (toULong ((frameIndex : Int) - manualLayer.startFrame) : ℚ) / (TRANSITION_FRAMES : ℚ)
  let endTransition : ℚ :=
    (toULong (manualLayer.endFrame - (frameIndex : Int)) : ℚ) / (TRANSITION_FRAMES : ℚ)
  let startTransition := clampD startTransition 0 1
  let endTransition := clampD endTransition 0 1
  if frameIndex ≤ toULong (manualLayer.startFrame + TRANSITION_FRAMES) then
    1 + (manualLayer.startScale - 1) * easeInOutQuad startTransition
  else if frameIndex ≥ toULong (manualLayer.endFrame - TRANSITION_FRAMES) then
    manualLayer.endScale + (1 - manualLayer.endScale) * (1 - easeInOutQuad endTransition)
  else
    manualLayer.startScale

/-- The zoom evaluation of `processFrame` (lines 101 to 142): scale and pan target for
the frame, and the smoothing state afterwards.  The layer lookups and the cursor
lookup take an `int`, so `frameIndex` is converted with `toInt`. -/
def evalZoom (sqrt : ℚ → ℚ) (zp : ZoomProcessor) (frameIndex : Nat) :
    ZoomParams × SmoothedValues :=
  match getActiveManualLayer zp.config (toInt frameIndex) with
  | some manualLayer =>
    ({ scale := manualScale manualLayer frameIndex
       targetX := manualLayer.targetX
       targetY := manualLayer.targetY }, zp.smoothedValues)
  | none =>
    match getActiveAutoLayer zp.config (toInt frameIndex) with
    | some autoLayer =>
      match zp.cursorData with
      | some cd =>
        calculateAutoZoom sqrt zp.smoothedValues autoLayer
          (getPositionAtFrame cd (toInt frameIndex)) frameIndex
      | none => ({ scale := 1, targetX := 1 / 2, targetY := 1 / 2 }, zp.smoothedValues)
    | none => ({ scale := 1, targetX := 1 / 2, targetY := 1 / 2 }, zp.smoothedValues)

/-- What one call of `processFrame` computes before the image operations. -/
structure FrameResult where
  /-- The evaluated scale. -/
  scale : ℚ
  /-- The evaluated pan target x. -/
  targetX : ℚ
  /-- The evaluated pan target y. -/
  targetY : ℚ
  /-- Width of the resized image. -/
  newWidth : Int
  /-- Height of the resized image. -/
  newHeight : Int
  /-- Crop origin x after clamping. -/
  x : Int
  /-- Crop origin y after clamping. -/
  y : Int
  /-- Width of the crop rectangle (the original width). -/
  roiWidth : Int
  /-- Height of the crop rectangle (the original height). -/
  roiHeight : Int
deriving DecidableEq, Repr

/-- The method `ZoomProcessor::processFrame` up to the construction of the crop
rectangle `roi`; `inputSize` is `input.size()` as `(width, height)`.  The OpenCV calls
`cv::resize` and `zoomed(roi).clone()` act on pixels and are not part of this function:
it returns the sizes and the rectangle they are called with, and the processor state
after the call. -/
def processFrame (sqrt : ℚ → ℚ) (zp : ZoomProcessor) (inputSize : Int × Int)
    (frameIndex : Nat) : FrameResult × ZoomProcessor :=
  let originalSize := if zp.firstFrame then inputSize else zp.originalSize
  let ev := evalZoom sqrt zp frameIndex
  let scale := ev.1.scale
  let targetX := ev.1.targetX
  let targetY := ev.1.targetY
  let newWidth := truncToInt ((originalSize.1 : ℚ) * scale)
  let newHeight := truncToInt ((originalSize.2 : ℚ) * scale)
  let x := truncToInt (((newWidth - originalSize.1 : Int) : ℚ) * targetX)
  let y := truncToInt (((newHeight - originalSize.2 : Int) : ℚ) * targetY)
  let x := clampI x 0 (newWidth - originalSize.1)
  let y := clampI y 0 (newHeight - originalSize.2)
  ({ scale := scale, targetX := targetX, targetY := targetY
     newWidth := newWidth, newHeight := newHeight
     x := x, y := y, roiWidth := originalSize.1, roiHeight := originalSize.2 },
   { zp with originalSize := originalSize, firstFrame := false, smoothedValues := ev.2 })

/-- The class invariant on the stored track: timestamps in non-decreasing order. -/
def SortedTrack (ps : List CursorPosition) : Prop :=
  ps.Pairwise (fun a b => a.timestamp ≤ b.timestamp)

/-- The image operations that end `processFrame`, by the OpenCV contract: `cv::resize`
needs a non-empty target size, and `zoomed(roi)` needs the rectangle `roi` inside the
resized image (`0 <= x`, `0 <= width`, `x + width <= cols`, and the same for rows);
otherwise a `cv::Exception` is thrown (`none`).  On success the output is the clone of
the crop and has the size of `roi`. -/
def outputSize (r : FrameResult) : Option (Int × Int) :=
  if 0 < r.newWidth ∧ 0 < r.newHeight ∧
      0 ≤ r.x ∧ 0 ≤ r.roiWidth ∧ r.x + r.roiWidth ≤ r.newWidth ∧
      0 ≤ r.y ∧ 0 ≤ r.roiHeight ∧ r.y + r.roiHeight ≤ r.newHeight then
    some (r.roiWidth, r.roiHeight)
  else none

/-- An auto layer covers frame `i`: `startFrame ≤ i ≤ endFrame`, both bounds inclusive. -/
def AutoZoomLayer.covers (A : AutoZoomLayer) (i : Int) : Prop :=
  A.startFrame ≤ i ∧ i ≤ A.endFrame

instance (A : AutoZoomLayer) (i : Int) : Decidable (A.covers i) := by
  unfold AutoZoomLayer.covers
  exact inferInstance

/-- The local `distanceFromCenter` of `calculateAutoZoom` (lines 43 to 49): the distance
from `(0.5, 0.5)` of the pan position after it has been smoothed toward the cursor
sample. -/
def distanceFromCenter (sqrt : ℚ → ℚ) (sv : SmoothedValues) (layer : AutoZoomLayer)
    (cursorPos : CursorPosition) : ℚ :=
  let lastX := smoothValue sv.lastX cursorPos.x layer.smoothing
  let lastY := smoothValue sv.lastY cursorPos.y layer.smoothing
  let dx := lastX - 1 / 2
  let dy := lastY - 1 / 2
  sqrt (dx * dx + dy * dy)

/-- The value stored in `smoothedValues.lastScale` by `calculateAutoZoom` (lines 52 to
57), as a function of `distanceFromCenter`. -/
def smoothedScale (sv : SmoothedValues) (layer : AutoZoomLayer) (distance : ℚ) : ℚ :=
  smoothValue sv.lastScale
    (clampD (layer.minScale + (layer.maxScale - layer.minScale) * (1 - distance))
      layer.minScale layer.maxScale)
    layer.smoothing

/-! ## CursorOverlay.h

Images are `cv::Mat` values: a size and the pixel at row `i`, column `j`.  The pixel
function is total; a read at an index outside `0 ≤ i < rows`, `0 ≤ j < cols` stands for an
out-of-bounds read of the source, whose value is unspecified.  The conversion of a
`float` to `uchar` by assignment truncates; a value outside `0..255` is outside the
model. -/

/-- The struct `CursorSettings` of `ZoomConfig.h`. -/
structure CursorSettings where
  /-- Scale factor of the cursor. -/
  size : ℚ
  /-- Opacity of the cursor. -/
  opacity : ℚ
  /-- Tint colour, ARGB (`uint32_t`). -/
  tintColor : Nat
  /-- Whether the tint is applied. -/
  hasTint : Bool
deriving DecidableEq, Repr

/-- A `cv::Vec3b` pixel: channel 0 is blue, channel 1 green, channel 2 red. -/
structure Vec3b where
  /-- Channel 0. -/
  b : Nat
  /-- Channel 1. -/
  g : Nat
  /-- Channel 2. -/
  r : Nat
deriving DecidableEq, Repr

/-- A `cv::Mat` with elements of type `α`. -/
structure Mat (α : Type) where
  /-- Number of rows (height). -/
  rows : Int
  /-- Number of columns (width). -/
  cols : Int
  /-- The element at row `i`, column `j`. -/
  px : Int → Int → α

/-- The index `(i, j)` lies inside the image. -/
def Mat.inBounds {α : Type} (m : Mat α) (i j : Int) : Prop :=
  0 ≤ i ∧ i < m.rows ∧ 0 ≤ j ∧ j < m.cols

/-- The default-constructed, empty `cv::Mat`. -/
def Mat.empty {α : Type} (d : α) : Mat α := { rows := 0, cols := 0, px := fun _ _ => d }

/-- The data members of class `CursorOverlay`: the three maps keyed by cursor type, the
flag `isLoaded` and the settings. -/
structure CursorOverlay where
  /-- The map `cursors`. -/
  cursors : Int → Option (Mat Vec3b)
  /-- The map `alphas`. -/
  alphas : Int → Option (Mat Nat)
  /-- The map `sizes`, values `(width, height)`. -/
  sizes : Int → Option (Int × Int)
  /-- The flag `isLoaded`. -/
  isLoaded : Bool
  /-- The current settings. -/
  settings : CursorSettings

/-- The constructor `CursorOverlay()`: empty maps, `isLoaded = false`, size 1, opacity 1,
no tint. -/
def CursorOverlay.init : CursorOverlay :=
  { cursors := fun _ => none, alphas := fun _ => none, sizes := fun _ => none
    isLoaded := false
    settings := { size := 1, opacity := 1, tintColor := 0, hasTint := false } }

/-- The method `setSettings`. -/
def setSettings (st : CursorOverlay) (newSettings : CursorSettings) : CursorOverlay :=
  { st with settings := newSettings }

/-- Assignment `m[key] = value` on a map. -/
def mapSet {β : Type} (m : Int → Option β) (key : Int) (value : β) : Int → Option β :=
  fun k => if k = key then some value else m k

/-- The method `loadCursor(path, cursorType)`.  The argument `img` is the outcome of
reading the file and normalising it (SVG rasterisation or PNG read, the four-channel
test, `normalizeSize`, `cv::split` and `cv::merge`): `none` when the method returns
`false`, otherwise the BGR image and its alpha channel.  On success the three maps are
set at `cursorType`, `sizes` to the size of the BGR image. -/
def loadCursor (st : CursorOverlay) (img : Option (Mat Vec3b × Mat Nat)) (cursorType : Int) :
    CursorOverlay × Bool :=
  match img with
  | none => (st, false)
  | some (cursor, alpha) =>
    ({ st with
        cursors := mapSet st.cursors cursorType cursor
        alphas := mapSet st.alphas cursorType alpha
        sizes := mapSet st.sizes cursorType (cursor.cols, cursor.rows) }, true)

/-- The keys of the map `cursorFiles` of `loadCursors`, in iteration (key) order:
`default.svg`, `textcursor.svg`, `resizenorthsouth.svg`, `handpointing.svg`,
`resizeleftright.svg`. -/
def cursorFiles : List Int := [65539, 65541, 65551, 65567, 65569]

/-- The loop of `loadCursors` over the remaining keys; `allLoaded` is the running flag. -/
def loadCursorsLoop (files : Int → Option (Mat Vec3b × Mat Nat)) :
    List Int → CursorOverlay → Bool → CursorOverlay × Bool
  | [], st, allLoaded => (st, allLoaded)
  | type :: rest, st, allLoaded =>
    let r := loadCursor st (files type) type
    loadCursorsLoop files rest r.1 (if r.2 then allLoaded else false)

/-- The method `loadCursors(cursorDir)`; `files type` is the outcome of loading the file
mapped to `type`.  Returns the new state and the returned flag. -/
def loadCursors (st : CursorOverlay) (files : Int → Option (Mat Vec3b × Mat Nat)) :
    CursorOverlay × Bool :=
  let r := loadCursorsLoop files cursorFiles st true
  ({ r.1 with isLoaded := r.2 }, r.2)

/-- The BT.601 luma `0.299 R + 0.587 G + 0.114 B`. -/
def bt601 (r g b : ℚ) : ℚ := 299 / 1000 * r + 587 / 1000 * g + 114 / 1000 * b

/-- The function `cvRound`: rounding to the nearest integer, ties to even. -/
def cvRound (q : ℚ) : Int :=
  if q - (⌊q⌋ : ℚ) < 1 / 2 then ⌊q⌋
  else if 1 / 2 < q - (⌊q⌋ : ℚ) then ⌊q⌋ + 1
  else if ⌊q⌋ % 2 = 0 then ⌊q⌋ else ⌊q⌋ + 1

/-- The function `cv::saturate_cast<uchar>(double)`: round, then clamp to `0..255`. -/
def saturate_cast_uchar (q : ℚ) : Nat :=
  if cvRound q < 0 then 0 else if 255 < cvRound q then 255 else (cvRound q).toNat

/-- The three values `luminance * blue * 255`, `luminance * green * 255`,
`luminance * red * 255` that `applyTint` computes for one pixel, as `(B, G, R)`, before
`saturate_cast`. -/
def tintValues (pixel : Vec3b) (tintColor : Nat) : ℚ × ℚ × ℚ :=
  let red : ℚ := ((tintColor / 65536 % 256 : Nat) : ℚ) / 255
  let green : ℚ := ((tintColor / 256 % 256 : Nat) : ℚ) / 255
  let blue : ℚ := ((tintColor % 256 : Nat) : ℚ) / 255
  let luminance : ℚ :=
    (299 / 1000 * (pixel.r : ℚ) + 587 / 1000 * (pixel.g : ℚ) + 114 / 1000 * (pixel.b : ℚ)) / 255
  (luminance * blue * 255, luminance * green * 255, luminance * red * 255)

/-- The body of the pixel loop of `applyTint`. -/
def applyTintPixel (pixel : Vec3b) (tintColor : Nat) : Vec3b :=
  { b := saturate_cast_uchar (tintValues pixel tintColor).1
    g := saturate_cast_uchar (tintValues pixel tintColor).2.1
    r := saturate_cast_uchar (tintValues pixel tintColor).2.2 }

/-- The method `applyTint`: every pixel inside the image is replaced. -/
def applyTint (cursor : Mat Vec3b) (tintColor : Nat) : Mat Vec3b :=
  { cursor with
    px := fun i j =>
      if 0 ≤ i ∧ i < cursor.rows ∧ 0 ≤ j ∧ j < cursor.cols then
        applyTintPixel (cursor.px i j) tintColor
      else cursor.px i j }

/-- The interpolation flags used by `overlay`. -/
inductive Interpolation where
  | INTER_AREA
  | INTER_LANCZOS4
deriving DecidableEq, Repr

/-- The pixel values computed by `cv::resize`, a parameter of the model: the element
`(i, j)` of the image resized to `w` columns and `h` rows. -/
structure Resizer where
  /-- Resized three-channel image. -/
  bgr : Interpolation → Mat Vec3b → Int → Int → Int → Int → Vec3b
  /-- Resized single-channel image. -/
  gray : Interpolation → Mat Nat → Int → Int → Int → Int → Nat

/-- The call `cv::resize(src, dst, cv::Size(w, h), 0, 0, interp)` on a three-channel
image: by the OpenCV contract the result has `h` rows and `w` columns. -/
def resizeBgr (rz : Resizer) (interp : Interpolation) (src : Mat Vec3b) (w h : Int) :
    Mat Vec3b :=
  { rows := h, cols := w, px := rz.bgr interp src w h }

/-- The call `cv::resize` on a single-channel image. -/
def resizeGray (rz : Resizer) (interp : Interpolation) (src : Mat Nat) (w h : Int) : Mat Nat :=
  { rows := h, cols := w, px := rz.gray interp src w h }

/-- Lines 209 to 214 of `overlay`: the cursor type that is drawn, or `none` when the
method returns at once. -/
def resolveCursorType (st : CursorOverlay) (cursorType : Int) : Option Int :=
  if !st.isLoaded || (st.cursors cursorType).isNone then
    if !st.isLoaded || (st.cursors 65541).isNone then none else some 65541
  else some cursorType

/-- Lines 230 to 235 of `overlay`: `(scaledWidth, scaledHeight)`. -/
def scaledSize (originalSize : Int × Int) (finalScale : ℚ) : Int × Int :=
  (max (truncToInt ((originalSize.1 : ℚ) * finalScale)) 16,
   max (truncToInt ((originalSize.2 : ℚ) * finalScale)) 16)

/-- Lines 238 to 248 of `overlay`: the sprite and alpha bitmaps after the conditional
resize. -/
def resizeSprite (rz : Resizer) (cursor : Mat Vec3b) (alpha : Mat Nat) (finalScale : ℚ)
    (scaledWidth scaledHeight : Int) : Mat Vec3b × Mat Nat :=
  if |finalScale - 1| > 1 / 1000 then
    if finalScale < 1 then
      (resizeBgr rz Interpolation.INTER_AREA cursor scaledWidth scaledHeight,
       resizeGray rz Interpolation.INTER_AREA alpha scaledWidth scaledHeight)
    else
      (resizeBgr rz Interpolation.INTER_LANCZOS4 cursor scaledWidth scaledHeight,
       resizeGray rz Interpolation.INTER_LANCZOS4 alpha scaledWidth scaledHeight)
  else (cursor, alpha)

/-- Lines 251 to 258 of `overlay`: the anchor offset and the clamping of the draw
position; returns the final `(x, y)`. -/
def placement (frame : Mat Vec3b) (x y scaledWidth scaledHeight : Int) : Int × Int :=
  let x := x - truncToInt ((scaledWidth : ℚ) * (3 / 10))
  let y := y - truncToInt ((scaledHeight : ℚ) * (3 / 10))
  let x := if x < 0 then 0 else x
  let y := if y < 0 then 0 else y
  let x := if x + scaledWidth > frame.cols then frame.cols - scaledWidth else x
  let y := if y + scaledHeight > frame.rows then frame.rows - scaledHeight else y
  (x, y)

/-- The test of `frame(cv::Rect(x, y, w, h))`, by the OpenCV contract: the rectangle lies
inside the image, otherwise a `cv::Exception` is thrown. -/
def roiInside (frame : Mat Vec3b) (x y w h : Int) : Prop :=
  0 ≤ x ∧ 0 ≤ w ∧ x + w ≤ frame.cols ∧ 0 ≤ y ∧ 0 ≤ h ∧ y + h ≤ frame.rows

instance (frame : Mat Vec3b) (x y w h : Int) : Decidable (roiInside frame x y w h) := by
  unfold roiInside
  exact inferInstance

/-- The conversion of the blended `float` value to `uchar` (truncation). -/
def floatToUchar (q : ℚ) : Nat := (truncToInt q).toNat

/-- The body of the blending loop (lines 266 to 275) for one pixel: `a` is the alpha
value, `pixel` the frame pixel, `cursor_pixel` the sprite pixel. -/
def blendPixel (opacity : ℚ) (a : Nat) (pixel cursor_pixel : Vec3b) : Vec3b :=
  if a > 0 then
    let alpha_f : ℚ := ((a : ℚ) / 255) * opacity
    { b := floatToUchar ((pixel.b : ℚ) * (1 - alpha_f) + (cursor_pixel.b : ℚ) * alpha_f)
      g := floatToUchar ((pixel.g : ℚ) * (1 - alpha_f) + (cursor_pixel.g : ℚ) * alpha_f)
      r := floatToUchar ((pixel.r : ℚ) * (1 - alpha_f) + (cursor_pixel.r : ℚ) * alpha_f) }
  else pixel

/-- The blending loop (lines 264 to 277) on the region of interest at `(x, y)`: every
iteration `(i, j)` with `0 ≤ i < scaledHeight`, `0 ≤ j < scaledWidth` rewrites the frame
pixel at row `y + i`, column `x + j` from that pixel and the elements `(i, j)` of `alpha`
and `cursor`; no pixel is visited twice. -/
def blendRoi (opacity : ℚ) (frame : Mat Vec3b) (cursor : Mat Vec3b) (alpha : Mat Nat)
    (x y scaledWidth scaledHeight : Int) : Mat Vec3b :=
  { frame with
    px := fun r c =>
      if 0 ≤ r - y ∧ r - y < scaledHeight ∧ 0 ≤ c - x ∧ c - x < scaledWidth then
        blendPixel opacity (alpha.px (r - y) (c - x)) (frame.px r c) (cursor.px (r - y) (c - x))
      else frame.px r c }

/-- How a call of `overlay` ends. -/
inductive OverlayOutcome where
  /-- The early `return`: nothing is drawn. -/
  | skipped
  /-- The region of interest is not inside the frame: `cv::Exception`, nothing is drawn. -/
  | roiError
  /-- The cursor has been blended; the argument is the frame after the call. -/
  | drawn (frame : Mat Vec3b)

/-- The frame after the call. -/
def frameAfter (frame : Mat Vec3b) : OverlayOutcome → Mat Vec3b
  | OverlayOutcome.skipped => frame
  | OverlayOutcome.roiError => frame
  | OverlayOutcome.drawn f => f

/-- The body of `overlay` from line 216 on, for the resolved cursor type. -/
def overlayResolved (rz : Resizer) (st : CursorOverlay) (frame : Mat Vec3b) (x y : Int)
    (cursorType : Int) (scale : ℚ) : OverlayOutcome :=
  let cursor := (st.cursors cursorType).getD (Mat.empty { b := 0, g := 0, r := 0 })
  let alpha := (st.alphas cursorType).getD (Mat.empty 0)
  let originalSize := (st.sizes cursorType).getD (0, 0)
  let cursor := if st.settings.hasTint then applyTint cursor st.settings.tintColor else cursor
  let finalScale := scale * st.settings.size
  let ss := scaledSize originalSize finalScale
  let sprite := resizeSprite rz cursor alpha finalScale ss.1 ss.2
  let pos := placement frame x y ss.1 ss.2
  if roiInside frame pos.1 pos.2 ss.1 ss.2 then
    OverlayOutcome.drawn (blendRoi st.settings.opacity frame sprite.1 sprite.2 pos.1 pos.2 ss.1 ss.2)
  else OverlayOutcome.roiError

/-- The method `CursorOverlay::overlay(frame, x, y, cursorType, scale)`. -/
def overlay (rz : Resizer) (st : CursorOverlay) (frame : Mat Vec3b) (x y : Int)
    (cursorType : Int) (scale : ℚ) : OverlayOutcome :=
  match resolveCursorType st cursorType with
  | none => OverlayOutcome.skipped
  | some t => overlayResolved rz st frame x y t scale

/-! ## Videoeditor.cpp: the rounded-corner composite of the frame loop -/

/-- The pixels set by `cv::rectangle(img, Point(x1, y1), Point(x2, y2), color, -1)`, by the
OpenCV contract: the filled rectangle with the two points as opposite corners, both
included.  Row `i`, column `j`. -/
def inFilledRectangle (x1 y1 x2 y2 : Int) (i j : Int) : Prop :=
  min x1 x2 ≤ j ∧ j ≤ max x1 x2 ∧ min y1 y2 ≤ i ∧ i ≤ max y1 y2

instance (x1 y1 x2 y2 i j : Int) : Decidable (inFilledRectangle x1 y1 x2 y2 i j) := by
  unfold inFilledRectangle
  exact inferInstance

/-- The pixels set by a filled `cv::ellipse` call, a parameter of the model: centre
`(cx, cy)`, axes `(ax, ay)`, rotation `angle` (the arc is always 0 to 90 degrees), then
row `i` and column `j`. -/
abbrev EllipseFill := Int → Int → Int → Int → Int → Int → Int → Bool

/-- The mask `cornerMask` of the frame loop (lines 463 to 485): a zero image on which two
filled rectangles and four filled quarter ellipses are drawn with value 255.  The
`double` coordinates are truncated by the conversion to `cv::Point` and `cv::Size`. -/
def cornerMask (ellipse : EllipseFill) (frameWidth frameHeight : Int) (radius : ℚ) : Mat Nat :=
  { rows := frameHeight
    cols := frameWidth
    px := fun i j =>
      if 0 ≤ i ∧ i < frameHeight ∧ 0 ≤ j ∧ j < frameWidth then
        if inFilledRectangle (truncToInt radius) 0
              (truncToInt ((frameWidth : ℚ) - radius - 1)) (frameHeight - 1) i j ∨
            inFilledRectangle 0 (truncToInt radius)
              (frameWidth - 1) (truncToInt ((frameHeight : ℚ) - radius - 1)) i j ∨
            ellipse (truncToInt radius) (truncToInt radius)
              (truncToInt radius) (truncToInt radius) 180 i j = true ∨
            ellipse (truncToInt ((frameWidth : ℚ) - radius - 1)) (truncToInt radius)
              (truncToInt radius) (truncToInt radius) 270 i j = true ∨
            ellipse (truncToInt radius) (truncToInt ((frameHeight : ℚ) - radius - 1))
              (truncToInt radius) (truncToInt radius) 90 i j = true ∨
            ellipse (truncToInt ((frameWidth : ℚ) - radius - 1))
              (truncToInt ((frameHeight : ℚ) - radius - 1))
              (truncToInt radius) (truncToInt radius) 0 i j = true then 255
        else 0
      else 0 }

/-- The image `background` of the frame loop (lines 457 to 461): the canvas filled with
the blue, green and red bytes of the ARGB colour. -/
def background (frameWidth frameHeight : Int) (color : Nat) : Mat Vec3b :=
  { rows := frameHeight
    cols := frameWidth
    px := fun _ _ => { b := color % 256, g := color / 256 % 256, r := color / 65536 % 256 } }

/-- The image `roundedFrame` of the frame loop (lines 492 to 493): a clone of the
background onto which `currentFrame.copyTo(roundedFrame, cornerMask)` copies the source
pixel wherever the mask is not zero. -/
def roundedFrame (ellipse : EllipseFill) (currentFrame : Mat Vec3b)
    (frameWidth frameHeight : Int) (color : Nat) (radius : ℚ) : Mat Vec3b :=
  { rows := frameHeight
    cols := frameWidth
    px := fun i j =>
      if (cornerMask ellipse frameWidth frameHeight radius).px i j ≠ 0 then currentFrame.px i j
      else (background frameWidth frameHeight color).px i j }

/-! ## Videoeditor.cpp: content placement and cursor anchor of the frame loop -/

/-- The arguments of one call of `calculateAutoZoom`. -/
structure AutoZoomCall where
  /-- The auto layer. -/
  layer : AutoZoomLayer
  /-- The cursor sample. -/
  cursorPos : CursorPosition
  /-- The frame index (`unsigned long`). -/
  frameIndex : Nat
deriving Repr

/-- The smoothing state after a sequence of `calculateAutoZoom` calls, each one starting
from the state left by the call before it. -/
def runAutoZoom (sqrt : ℚ → ℚ) : SmoothedValues → List AutoZoomCall → SmoothedValues
  | sv, [] => sv
  | sv, c :: rest =>
    runAutoZoom sqrt (calculateAutoZoom sqrt sv c.layer c.cursorPos c.frameIndex).2 rest

/-- A call whose cursor sample lies in the unit square and whose layer has smoothing in
`[0,1]` and `1 ≤ minScale ≤ maxScale`. -/
def AutoZoomCall.admissible (c : AutoZoomCall) : Prop :=
  (0 ≤ c.cursorPos.x ∧ c.cursorPos.x ≤ 1) ∧ (0 ≤ c.cursorPos.y ∧ c.cursorPos.y ≤ 1) ∧
  (0 ≤ c.layer.smoothing ∧ c.layer.smoothing ≤ 1) ∧
  1 ≤ c.layer.minScale ∧ c.layer.minScale ≤ c.layer.maxScale

/-- A smoothing state with `lastX`, `lastY` in `[0,1]` and `lastScale ≥ 1`. -/
def SmoothedValues.inRange (sv : SmoothedValues) : Prop :=
  (0 ≤ sv.lastX ∧ sv.lastX ≤ 1) ∧ (0 ≤ sv.lastY ∧ sv.lastY ≤ 1) ∧ 1 ≤ sv.lastScale

/-- Outputs of `calculateAutoZoom` with `scale ≥ 1` and pan target in the unit square. -/
def ZoomParams.inRange (p : ZoomParams) : Prop :=
  1 ≤ p.scale ∧ (0 ≤ p.targetX ∧ p.targetX ≤ 1) ∧ (0 ≤ p.targetY ∧ p.targetY ≤ 1)

/-! ## The artwork files of `loadCursors` -/

/-- The five file names of the map `cursorFiles` in `loadCursors`. -/
inductive CursorFile where
  /-- The file `default.svg`, the normal arrow cursor. -/
  | default_svg
  /-- The file `textcursor.svg`, the text cursor (I-beam). -/
  | textcursor_svg
  /-- The file `handpointing.svg`, the hand pointer. -/
  | handpointing_svg
  /-- The file `resizenorthsouth.svg`, the vertical resize cursor. -/
  | resizenorthsouth_svg
  /-- The file `resizeleftright.svg`, the horizontal resize cursor. -/
  | resizeleftright_svg
deriving DecidableEq, Repr

/-- The map `cursorFiles` of `loadCursors` (lines 185 to 191), from cursor type to file. -/
def cursorFileOf (cursorType : Int) : Option CursorFile :=
  if cursorType = 65539 then some CursorFile.default_svg
  else if cursorType = 65541 then some CursorFile.textcursor_svg
  else if cursorType = 65567 then some CursorFile.handpointing_svg
  else if cursorType = 65551 then some CursorFile.resizenorthsouth_svg
  else if cursorType = 65569 then some CursorFile.resizeleftright_svg
  else none

/-! ## Example data -/

/-- A stand-in for `std::sqrt` in examples whose result does not depend on it. -/
def sqrtStub (q : ℚ) : ℚ := q

/-- A two-sample track: `(0,0)` at 0 ms with cursor type 65539 and `(1,1)` at 1000 ms
with cursor type 65541, read at 30 frames per second. -/
def trackTwo : CursorData :=
  { positions := [{ x := 0, y := 0, timestamp := 0, cursorType := 65539 },
                  { x := 1, y := 1, timestamp := 1000, cursorType := 65541 }]
    videoDuration := 1000
    fps := 30 }

/-- A processor with the given layers, the seed smoothing state and the track `trackTwo`. -/
def processorWith (manual : List ManualZoomLayer) (auto : List AutoZoomLayer) : ZoomProcessor :=
  { originalSize := (0, 0)
    firstFrame := true
    config := { type := ZoomType.Manual, manualLayers := manual, autoLayers := auto }
    cursorData := some trackTwo
    smoothedValues := { lastX := 1 / 2, lastY := 1 / 2, lastScale := 1 } }

/-- A manual layer over frames 100 to 140: shorter than two transition windows. -/
def layerShort : ManualZoomLayer :=
  { startFrame := 100, endFrame := 140, startScale := 3, endScale := 5
    targetX := 1 / 4, targetY := 3 / 4 }

/-- A manual layer over frames 100 to 400. -/
def layerLong : ManualZoomLayer :=
  { startFrame := 100, endFrame := 400, startScale := 3, endScale := 5
    targetX := 1 / 4, targetY := 3 / 4 }

/-- An auto layer over frames 200 to 500. -/
def layerAuto : AutoZoomLayer :=
  { startFrame := 200, endFrame := 500, minScale := 1, maxScale := 2
    followSpeed := 3 / 10, smoothing := 7 / 10 }

/-- The end-to-end scenario layer: frames 0 to 90, `startScale` 2, `endScale` 1, pan
target `(0.5, 0.5)`. -/
def scenarioLayer : ManualZoomLayer :=
  { startFrame := 0, endFrame := 90, startScale := 2, endScale := 1
    targetX := 1 / 2, targetY := 1 / 2 }

/-- A processor in an arbitrary state whose configuration holds the single manual layer
`scenarioLayer` and no auto layer. -/
def scenarioProcessor (os : Int × Int) (ff : Bool) (ty : ZoomType) (cd : Option CursorData)
    (sv : SmoothedValues) : ZoomProcessor :=
  { originalSize := os, firstFrame := ff
    config := { type := ty, manualLayers := [scenarioLayer], autoLayers := [] }
    cursorData := cd, smoothedValues := sv }

/-- A manual layer over frames 0 to 20, shorter than the start window. -/
def layerTiny : ManualZoomLayer :=
  { startFrame := 0, endFrame := 20, startScale := 2, endScale := 1
    targetX := 1 / 2, targetY := 1 / 2 }

/-- A second manual layer, over frames 110 to 300, with another pan target. -/
def layerLater : ManualZoomLayer :=
  { startFrame := 110, endFrame := 300, startScale := 4, endScale := 4
    targetX := 9 / 10, targetY := 1 / 10 }

/-- A manual layer covers frame `i`: `startFrame ≤ i ≤ endFrame`, both bounds inclusive. -/
def ManualZoomLayer.covers (L : ManualZoomLayer) (i : Int) : Prop :=
  L.startFrame ≤ i ∧ i ≤ L.endFrame

instance (L : ManualZoomLayer) (i : Int) : Decidable (L.covers i) := by
  unfold ManualZoomLayer.covers
  exact inferInstance

/-- A track whose first sample is at 500 ms, read at 30 frames per second. -/
def trackLate : CursorData :=
  { positions := [{ x := 1 / 4, y := 1 / 4, timestamp := 500, cursorType := 65539 },
                  { x := 3 / 4, y := 3 / 4, timestamp := 1500, cursorType := 65541 }]
    videoDuration := 1500
    fps := 30 }

/-- A sorted track whose last two samples share the timestamp 1000 ms. -/
def trackTies : CursorData :=
  { positions := [{ x := 0, y := 0, timestamp := 0, cursorType := 65539 },
                  { x := 1 / 5, y := 1 / 5, timestamp := 1000, cursorType := 65541 },
                  { x := 4 / 5, y := 4 / 5, timestamp := 1000, cursorType := 65545 }]
    videoDuration := 1000
    fps := 30 }

/-- A manual layer over frames 0 to 200 that shrinks the picture: both scales are 0.5. -/
def layerShrink : ManualZoomLayer :=
  { startFrame := 0, endFrame := 200, startScale := 1 / 2, endScale := 1 / 2
    targetX := 1 / 2, targetY := 1 / 2 }

/-- A manual layer over frames 0 to 200 with scale 2 and a pan target outside `[0,1]`. -/
def layerOffTarget : ManualZoomLayer :=
  { startFrame := 0, endFrame := 200, startScale := 2, endScale := 2
    targetX := 3, targetY := -2 }

/-- An auto layer over frames 0 to 1000 with scales 1 to 2 and smoothing 0.5. -/
def layerAutoHalf : AutoZoomLayer :=
  { startFrame := 0, endFrame := 1000, minScale := 1, maxScale := 2
    followSpeed := 3 / 10, smoothing := 1 / 2 }

/-- A smoothing state whose pan position is near the right edge. -/
def stateRight : SmoothedValues := { lastX := 9 / 10, lastY := 1 / 2, lastScale := 1 }

/-- A cursor sample at the centre of the screen. -/
def cursorCentre : CursorPosition := { x := 1 / 2, y := 1 / 2, timestamp := 0, cursorType := 65539 }

/-- A cursor sample near the left edge, at distance 0.4 from the centre. -/
def cursorLeft : CursorPosition := { x := 1 / 10, y := 1 / 2, timestamp := 0, cursorType := 65539 }

/-- An image of one colour. -/
def solidBgr (rows cols : Int) (v : Vec3b) : Mat Vec3b :=
  { rows := rows, cols := cols, px := fun _ _ => v }

/-- A single-channel image of one value. -/
def solidGray (rows cols : Int) (v : Nat) : Mat Nat :=
  { rows := rows, cols := cols, px := fun _ _ => v }

/-- A nearest-neighbour stand-in for the pixel values of `cv::resize`. -/
def resizerNearest : Resizer :=
  { bgr := fun _ src w h i j => src.px (i * src.rows / h) (j * src.cols / w)
    gray := fun _ src w h i j => src.px (i * src.rows / h) (j * src.cols / w) }

/-- Load outcomes in which every file yields an opaque white 128 by 128 sprite, except the
file of cursor type `missing`, which fails to load. -/
def filesExcept (missing : Int) : Int → Option (Mat Vec3b × Mat Nat) :=
  fun t => if t = missing then none
    else some (solidBgr 128 128 { b := 255, g := 255, r := 255 }, solidGray 128 128 255)

/-- The renderer after `loadCursors` when only `default.svg` (type 65539) failed. -/
def overlayMissingArrow : CursorOverlay := (loadCursors CursorOverlay.init (filesExcept 65539)).1

/-- The renderer after `loadCursors` when all five files loaded. -/
def overlayAllLoaded : CursorOverlay := (loadCursors CursorOverlay.init (filesExcept 0)).1

/-- A 1920 by 1080 frame of one dark colour. -/
def frameDark : Mat Vec3b := solidBgr 1080 1920 { b := 10, g := 20, r := 30 }

/-- A stand-in for the filled quarter ellipse: the closed disc test on the axes box. -/
def ellipseStub : EllipseFill :=
  fun cx cy ax ay _ i j => decide ((j - cx) ^ 2 * ay ^ 2 + (i - cy) ^ 2 * ax ^ 2 ≤ ax ^ 2 * ay ^ 2)

/-- A 4 by 3 source frame whose pixel at row `i`, column `j` encodes its position. -/
def frameSmall : Mat Vec3b :=
  { rows := 3, cols := 4, px := fun i j => { b := i.toNat, g := j.toNat, r := 7 } }

/-- Two consecutive auto-zoom calls on `layerAutoHalf`: the cursor near the left edge at
frame 500, then at the centre at frame 501. -/
def callsExample : List AutoZoomCall :=
  [{ layer := layerAutoHalf, cursorPos := cursorLeft, frameIndex := 500 },
   { layer := layerAutoHalf, cursorPos := cursorCentre, frameIndex := 501 }]

/-- A processor whose configuration has the type tag `Auto`, the manual layer `layerLong`
(frames 100 to 400) and the auto layer `layerAuto` (frames 200 to 500), with the seed
smoothing state and the track `trackTwo`. -/
def processorAutoType : ZoomProcessor :=
  { originalSize := (0, 0)
    firstFrame := true
    config := { type := ZoomType.Auto, manualLayers := [layerLong], autoLayers := [layerAuto] }
    cursorData := some trackTwo
    smoothedValues := { lastX := 1 / 2, lastY := 1 / 2, lastScale := 1 } }

/-- A track with no samples. -/
def trackEmpty : CursorData := { positions := [], videoDuration := 0, fps := 30 }

/-! ## Shared lemmas -/

theorem easeInOutQuad_zero : easeInOutQuad 0 = 0 := by
  norm_num [easeInOutQuad]

theorem easeInOutQuad_one : easeInOutQuad 1 = 1 := by
  norm_num [easeInOutQuad]

theorem clampD_zero : clampD 0 0 1 = 0 := by
  norm_num [clampD]

theorem clampD_of_one_le (v : ℚ) (h : 1 ≤ v) : clampD v 0 1 = 1 := by
  unfold clampD
  rw [if_neg (show ¬ v < 0 by linarith)]
  split_ifs with h1
  · rfl
  · linarith

theorem toInt_eq_of_ge (n : Nat) (k : Int) (hk : k ≤ 2147483648)
    (h : (n : Int) - k ≤ toInt n) : n < 2147483648 ∧ toInt n = n := by
  unfold toInt at h ⊢
  split_ifs at h ⊢ <;> omega

theorem toInt_of_lt (n : Nat) (h : n < 2147483648) : toInt n = (n : Int) := by
  unfold toInt
  have h1 : n % 4294967296 = n := Nat.mod_eq_of_lt (by omega)
  rw [h1, if_pos h]

theorem getActiveManualLayer_some_covers (cfg : ZoomConfig) (i : Int) (L : ManualZoomLayer)
    (h : getActiveManualLayer cfg i = some L) : L.startFrame ≤ i ∧ i ≤ L.endFrame := by
  unfold getActiveManualLayer at h
  have := List.find?_some h
  simpa using this

theorem getActiveAutoLayer_some_covers (cfg : ZoomConfig) (i : Int) (A : AutoZoomLayer)
    (h : getActiveAutoLayer cfg i = some A) : A.startFrame ≤ i ∧ i ≤ A.endFrame := by
  unfold getActiveAutoLayer at h
  have := List.find?_some h
  simpa using this

theorem processFrame_scale (sqrt : ℚ → ℚ) (zp : ZoomProcessor) (inputSize : Int × Int)
    (f : Nat) : (processFrame sqrt zp inputSize f).1.scale = (evalZoom sqrt zp f).1.scale := rfl

theorem processFrame_targetX (sqrt : ℚ → ℚ) (zp : ZoomProcessor) (inputSize : Int × Int)
    (f : Nat) : (processFrame sqrt zp inputSize f).1.targetX = (evalZoom sqrt zp f).1.targetX := rfl

theorem processFrame_targetY (sqrt : ℚ → ℚ) (zp : ZoomProcessor) (inputSize : Int × Int)
    (f : Nat) : (processFrame sqrt zp inputSize f).1.targetY = (evalZoom sqrt zp f).1.targetY := rfl

theorem evalZoom_manual (sqrt : ℚ → ℚ) (zp : ZoomProcessor) (f : Nat) (L : ManualZoomLayer)
    (h : getActiveManualLayer zp.config (toInt f) = some L) :
    (evalZoom sqrt zp f).1 =
      { scale := manualScale L f, targetX := L.targetX, targetY := L.targetY } := by
  unfold evalZoom
  rw [h]

theorem evalZoom_auto (sqrt : ℚ → ℚ) (zp : ZoomProcessor) (f : Nat) (A : AutoZoomLayer)
    (cd : CursorData) (hm : getActiveManualLayer zp.config (toInt f) = none)
    (ha : getActiveAutoLayer zp.config (toInt f) = some A) (hc : zp.cursorData = some cd) :
    evalZoom sqrt zp f =
      calculateAutoZoom sqrt zp.smoothedValues A (getPositionAtFrame cd (toInt f)) f := by
  unfold evalZoom
  rw [hm, ha, hc]

theorem evalZoom_auto_noCursor (sqrt : ℚ → ℚ) (zp : ZoomProcessor) (f : Nat)
    (A : AutoZoomLayer) (hm : getActiveManualLayer zp.config (toInt f) = none)
    (ha : getActiveAutoLayer zp.config (toInt f) = some A) (hc : zp.cursorData = none) :
    (evalZoom sqrt zp f).1 = { scale := 1, targetX := 1 / 2, targetY := 1 / 2 } := by
  unfold evalZoom
  rw [hm, ha, hc]

theorem manualScale_at_start (L : ManualZoomLayer) (f : Nat) (hf : f < 2147483648)
    (hs : L.startFrame = (f : Int)) : manualScale L f = 1 := by
  have h1 : toULong ((f : Int) - L.startFrame) = 0 := by
    unfold toULong; omega
  have h2 : f ≤ toULong (L.startFrame + TRANSITION_FRAMES) := by
    unfold toULong TRANSITION_FRAMES; omega
  unfold manualScale
  simp only [h1, h2, if_true]
  simp [clampD_zero, easeInOutQuad_zero]

theorem calculateAutoZoom_at_start (sqrt : ℚ → ℚ) (sv : SmoothedValues) (A : AutoZoomLayer)
    (c : CursorPosition) (f : Nat) (hf : f < 2147483648) (hs : A.startFrame = (f : Int)) :
    (calculateAutoZoom sqrt sv A c f).1 = { scale := 1, targetX := 1 / 2, targetY := 1 / 2 } := by
  have h1 : toULong ((f : Int) - A.startFrame) = 0 := by
    unfold toULong; omega
  have h2 : f ≤ toULong (A.startFrame + TRANSITION_FRAMES) := by
    unfold toULong TRANSITION_FRAMES; omega
  unfold calculateAutoZoom
  simp only [h1, h2, if_true]
  simp [clampD_zero, easeInOutQuad_zero]

/-! ## The cursor track -/

/-- C5: for a track with no samples `getPositionAtFrame` returns the centre `(0.5, 0.5)`,
timestamp 0 and the standard cursor id 65539, for every frame index and every `fps`
(and every stored duration). -/
theorem getPositionAtFrame_empty (videoDuration fps : ℚ) (frameIndex : Int) :
    getPositionAtFrame { positions := [], videoDuration := videoDuration, fps := fps } frameIndex
      = { x := 1 / 2, y := 1 / 2, timestamp := 0, cursorType := 65539 } := rfl

/-! ## The zoom timeline -/

/-- C6: at a frame that equals the `startFrame` of the active layer (the first matching
manual layer, or the first matching auto layer when no manual layer matches) the scale
computed by `processFrame` is exactly 1, whatever the scales of the layer, the cursor
track, the `sqrt` function and the smoothing state. -/
theorem processFrame_scale_at_startFrame (sqrt : ℚ → ℚ) (zp : ZoomProcessor)
    (inputSize : Int × Int) (frameIndex : Nat)
    (hactive :
      (∃ L, getActiveManualLayer zp.config (toInt frameIndex) = some L ∧
          L.startFrame = (frameIndex : Int)) ∨
      (getActiveManualLayer zp.config (toInt frameIndex) = none ∧
        ∃ A, getActiveAutoLayer zp.config (toInt frameIndex) = some A ∧
          A.startFrame = (frameIndex : Int))) :
    (processFrame sqrt zp inputSize frameIndex).1.scale = 1 := by
  rw [processFrame_scale]
  rcases hactive with ⟨L, hL, hs⟩ | ⟨hm, A, hA, hs⟩
  · have hc := getActiveManualLayer_some_covers _ _ _ hL
    have hf := toInt_eq_of_ge frameIndex 0 (by norm_num) (by omega)
    rw [evalZoom_manual sqrt zp frameIndex L hL]
    exact manualScale_at_start L frameIndex hf.1 hs
  · have hc := getActiveAutoLayer_some_covers _ _ _ hA
    have hf := toInt_eq_of_ge frameIndex 0 (by norm_num) (by omega)
    cases hcd : zp.cursorData with
    | none => rw [evalZoom_auto_noCursor sqrt zp frameIndex A hm hA hcd]
    | some cd =>
      rw [evalZoom_auto sqrt zp frameIndex A cd hm hA hcd,
        calculateAutoZoom_at_start sqrt _ A _ frameIndex hf.1 hs]

/-- Witness of C6: frame 100 starts the manual layer `layerLong` and frame 200 starts the
auto layer `layerAuto` of a processor without manual layers. -/
theorem processFrame_scale_at_startFrame_witness :
    (processFrame sqrtStub (processorWith [layerLong] [layerAuto]) (1920, 1080) 100).1.scale = 1 ∧
    (processFrame sqrtStub (processorWith [] [layerAuto]) (1920, 1080) 200).1.scale = 1 :=
  ⟨processFrame_scale_at_startFrame sqrtStub (processorWith [layerLong] [layerAuto])
      (1920, 1080) 100
      (Or.inl ⟨layerLong, by simp [getActiveManualLayer, processorWith, toInt, layerLong], rfl⟩),
   processFrame_scale_at_startFrame sqrtStub (processorWith [] [layerAuto]) (1920, 1080) 200
      (Or.inr ⟨by simp [getActiveManualLayer, processorWith],
        layerAuto, by simp [getActiveAutoLayer, processorWith, toInt, layerAuto], rfl⟩)⟩

theorem manualScale_at_start_plus_window (L : ManualZoomLayer) (f : Nat)
    (hf : f < 2147483648) (hs : (f : Int) = L.startFrame + 30) :
    manualScale L f = L.startScale := by
  have h1 : toULong ((f : Int) - L.startFrame) = 30 := by
    unfold toULong; omega
  have h2 : f ≤ toULong (L.startFrame + TRANSITION_FRAMES) := by
    unfold toULong TRANSITION_FRAMES; omega
  unfold manualScale
  simp only [h1, h2, if_true]
  have h3 : clampD (((30 : Nat) : ℚ) / ((TRANSITION_FRAMES : Int) : ℚ)) 0 1 = 1 := by
    apply clampD_of_one_le
    norm_num [TRANSITION_FRAMES]
  rw [h3, easeInOutQuad_one]
  ring

theorem manualScale_interior (L : ManualZoomLayer) (f : Nat)
    (hs : isInt32 L.startFrame) (he : isInt32 L.endFrame)
    (h1 : L.startFrame + 30 < (f : Int)) (h2 : (f : Int) < L.endFrame - 30) :
    manualScale L f = L.startScale := by
  unfold isInt32 at hs he
  unfold manualScale
  by_cases hstart : f ≤ toULong (L.startFrame + TRANSITION_FRAMES)
  · simp only [hstart, if_true]
    have h3 : 30 ≤ toULong ((f : Int) - L.startFrame) := by
      unfold toULong TRANSITION_FRAMES at *; omega
    have h4 : clampD ((toULong ((f : Int) - L.startFrame) : ℚ) /
        ((TRANSITION_FRAMES : Int) : ℚ)) 0 1 = 1 := by
      apply clampD_of_one_le
      rw [le_div_iff₀ (by norm_num [TRANSITION_FRAMES])]
      norm_num [TRANSITION_FRAMES]
      exact h3
    rw [h4, easeInOutQuad_one]
    ring
  · have hend : ¬ (f ≥ toULong (L.endFrame - TRANSITION_FRAMES)) := by
      unfold toULong TRANSITION_FRAMES at *; omega
    simp only [hstart, hend, if_false]

/-- C7: when the manual layer `L` is the first matching manual layer at frame
`L.startFrame + 30` (`TRANSITION_FRAMES`), the scale computed by `processFrame` equals
`L.startScale`.  Nothing is assumed about `L.endFrame`, so the start-window branch
decides the scale also when the frame lies in the end window; no lower bound on
`L.startFrame` is needed. -/
theorem processFrame_scale_at_start_window_end (sqrt : ℚ → ℚ) (zp : ZoomProcessor)
    (inputSize : Int × Int) (frameIndex : Nat) (L : ManualZoomLayer)
    (hL : getActiveManualLayer zp.config (toInt frameIndex) = some L)
    (hf : (frameIndex : Int) = L.startFrame + 30) :
    (processFrame sqrt zp inputSize frameIndex).1.scale = L.startScale := by
  have hc := getActiveManualLayer_some_covers _ _ _ hL
  have hlt := toInt_eq_of_ge frameIndex 30 (by norm_num) (by omega)
  rw [processFrame_scale, evalZoom_manual sqrt zp frameIndex L hL]
  exact manualScale_at_start_plus_window L frameIndex hlt.1 hf

/-- Witness of C7: frame 130 of `layerShort` (frames 100 to 140, `startScale` 3,
`endScale` 5) lies in the start window and in the end window (130 ≥ 140 - 30); the
scale is `startScale`. -/
theorem processFrame_scale_at_start_window_end_witness :
    (130 : Int) ≥ layerShort.endFrame - 30 ∧
    (processFrame sqrtStub (processorWith [layerShort] [layerAuto]) (1920, 1080) 130).1.scale
      = 3 :=
  ⟨by simp [layerShort],
   processFrame_scale_at_start_window_end sqrtStub (processorWith [layerShort] [layerAuto])
    (1920, 1080) 130 layerShort
    (by simp [getActiveManualLayer, processorWith, toInt, layerShort])
    (by simp [layerShort])⟩

/-- C8: when the manual layer `L` (with `int` frame bounds) is the first matching manual
layer at a frame `f` with `L.startFrame + 30 < f < L.endFrame - 30`, the scale computed by
`processFrame` is `L.startScale`; `L.endScale` does not occur in the result. -/
theorem processFrame_scale_interior (sqrt : ℚ → ℚ) (zp : ZoomProcessor)
    (inputSize : Int × Int) (frameIndex : Nat) (L : ManualZoomLayer)
    (hs : isInt32 L.startFrame) (he : isInt32 L.endFrame)
    (hL : getActiveManualLayer zp.config (toInt frameIndex) = some L)
    (h1 : L.startFrame + 30 < (frameIndex : Int)) (h2 : (frameIndex : Int) < L.endFrame - 30) :
    (processFrame sqrt zp inputSize frameIndex).1.scale = L.startScale := by
  rw [processFrame_scale, evalZoom_manual sqrt zp frameIndex L hL]
  exact manualScale_interior L frameIndex hs he h1 h2

/-- Witness of C8: frame 250 of `layerLong` (frames 100 to 400, `startScale` 3,
`endScale` 5). -/
theorem processFrame_scale_interior_witness :
    (processFrame sqrtStub (processorWith [layerLong] [layerAuto]) (1920, 1080) 250).1.scale
      = 3 :=
  processFrame_scale_interior sqrtStub (processorWith [layerLong] [layerAuto])
    (1920, 1080) 250 layerLong (by simp [isInt32, layerLong]) (by simp [isInt32, layerLong])
    (by simp [getActiveManualLayer, processorWith, toInt, layerLong])
    (by simp [layerLong]) (by simp [layerLong])

theorem manualScale_at_end (L : ManualZoomLayer) (f : Nat) (hf : f < 2147483648)
    (he : L.endFrame = (f : Int)) (h0 : -30 ≤ L.startFrame)
    (h1 : L.startFrame + 30 < L.endFrame) (h2 : 30 ≤ L.endFrame) : manualScale L f = 1 := by
  have hstart : ¬ (f ≤ toULong (L.startFrame + TRANSITION_FRAMES)) := by
    unfold toULong TRANSITION_FRAMES; omega
  have hend : f ≥ toULong (L.endFrame - TRANSITION_FRAMES) := by
    unfold toULong TRANSITION_FRAMES; omega
  have h3 : toULong (L.endFrame - (f : Int)) = 0 := by
    unfold toULong; omega
  unfold manualScale
  simp only [hstart, hend, h3, if_true, if_false]
  simp [clampD_zero, easeInOutQuad_zero]

theorem calculateAutoZoom_at_end (sqrt : ℚ → ℚ) (sv : SmoothedValues) (A : AutoZoomLayer)
    (c : CursorPosition) (f : Nat) (hf : f < 2147483648)
    (he : A.endFrame = (f : Int)) (h0 : -30 ≤ A.startFrame)
    (h1 : A.startFrame + 30 < A.endFrame) (h2 : 30 ≤ A.endFrame) :
    (calculateAutoZoom sqrt sv A c f).1 = { scale := 1, targetX := 1 / 2, targetY := 1 / 2 } := by
  have hstart : ¬ (f ≤ toULong (A.startFrame + TRANSITION_FRAMES)) := by
    unfold toULong TRANSITION_FRAMES; omega
  have hend : f ≥ toULong (A.endFrame - TRANSITION_FRAMES) := by
    unfold toULong TRANSITION_FRAMES; omega
  have h3 : toULong (A.endFrame - (f : Int)) = 0 := by
    unfold toULong; omega
  unfold calculateAutoZoom
  simp only [hstart, hend, h3, if_true, if_false]
  simp [clampD_zero, easeInOutQuad_zero]

/-- C9, counterexample: the manual layer `layerTiny` (frames 0 to 20, `startScale` 2,
`endScale` 1) is the active layer at its own `endFrame` 20, and the scale computed by
`processFrame` there is `16/9`, not 1: frame 20 lies in the start window, whose branch is
tested first. -/
theorem processFrame_scale_at_endFrame_counterexample :
    getActiveManualLayer (processorWith [layerTiny] []).config (toInt 20) = some layerTiny ∧
    layerTiny.endFrame = 20 ∧
    (processFrame sqrtStub (processorWith [layerTiny] []) (1920, 1080) 20).1.scale = 16 / 9 ∧
    (processFrame sqrtStub (processorWith [layerTiny] []) (1920, 1080) 20).1.scale ≠ 1 := by
  have hL : getActiveManualLayer (processorWith [layerTiny] []).config (toInt 20)
      = some layerTiny := by
    simp [getActiveManualLayer, processorWith, toInt, layerTiny]
  have hv : (processFrame sqrtStub (processorWith [layerTiny] []) (1920, 1080) 20).1.scale
      = 16 / 9 := by
    rw [processFrame_scale, evalZoom_manual _ _ _ _ hL]
    simp [manualScale, layerTiny, toULong, TRANSITION_FRAMES, clampD, easeInOutQuad]
    norm_num
  refine ⟨hL, rfl, hv, ?_⟩
  rw [hv]
  norm_num

/-- C9, amended: when the active layer at frame `f` (the first matching manual layer, or
the first matching auto layer when no manual layer matches) has `endFrame = f`, frame
bounds with `-30 ≤ startFrame`, `30 ≤ endFrame` and `startFrame + 30 < endFrame` (the end
frame lies beyond the start window), the scale computed by `processFrame` at `f` is 1, and
for an auto layer the pan target is `(0.5, 0.5)`. -/
theorem processFrame_at_endFrame (sqrt : ℚ → ℚ) (zp : ZoomProcessor)
    (inputSize : Int × Int) (frameIndex : Nat)
    (hactive :
      (∃ L, getActiveManualLayer zp.config (toInt frameIndex) = some L ∧
          L.endFrame = (frameIndex : Int) ∧ isInt32 L.endFrame ∧ -30 ≤ L.startFrame ∧
          L.startFrame + 30 < L.endFrame ∧ 30 ≤ L.endFrame) ∨
      (getActiveManualLayer zp.config (toInt frameIndex) = none ∧
        ∃ A, getActiveAutoLayer zp.config (toInt frameIndex) = some A ∧
          A.endFrame = (frameIndex : Int) ∧ isInt32 A.endFrame ∧ -30 ≤ A.startFrame ∧
          A.startFrame + 30 < A.endFrame ∧ 30 ≤ A.endFrame)) :
    (processFrame sqrt zp inputSize frameIndex).1.scale = 1 ∧
    (getActiveManualLayer zp.config (toInt frameIndex) = none →
      (processFrame sqrt zp inputSize frameIndex).1.targetX = 1 / 2 ∧
      (processFrame sqrt zp inputSize frameIndex).1.targetY = 1 / 2) := by
  rw [processFrame_scale, processFrame_targetX, processFrame_targetY]
  rcases hactive with ⟨L, hL, he, hi, h0, h1, h2⟩ | ⟨hm, A, hA, he, hi, h0, h1, h2⟩
  · have hf : frameIndex < 2147483648 := by
      unfold isInt32 at hi; omega
    constructor
    · rw [evalZoom_manual sqrt zp frameIndex L hL]
      exact manualScale_at_end L frameIndex hf he h0 h1 h2
    · intro hnone
      rw [hL] at hnone
      cases hnone
  · have hf : frameIndex < 2147483648 := by
      unfold isInt32 at hi; omega
    cases hcd : zp.cursorData with
    | none =>
      rw [evalZoom_auto_noCursor sqrt zp frameIndex A hm hA hcd]
      exact ⟨rfl, fun _ => ⟨rfl, rfl⟩⟩
    | some cd =>
      rw [evalZoom_auto sqrt zp frameIndex A cd hm hA hcd,
        calculateAutoZoom_at_end sqrt _ A _ frameIndex hf he h0 h1 h2]
      exact ⟨rfl, fun _ => ⟨rfl, rfl⟩⟩

/-- Witness of C9 amended: frame 400 ends the manual layer `layerLong` and frame 500 ends
the auto layer `layerAuto` of a processor without manual layers. -/
theorem processFrame_at_endFrame_witness :
    (processFrame sqrtStub (processorWith [layerLong] [layerAuto]) (1920, 1080) 400).1.scale = 1 ∧
    ((processFrame sqrtStub (processorWith [] [layerAuto]) (1920, 1080) 500).1.scale = 1 ∧
     (processFrame sqrtStub (processorWith [] [layerAuto]) (1920, 1080) 500).1.targetX = 1 / 2 ∧
     (processFrame sqrtStub (processorWith [] [layerAuto]) (1920, 1080) 500).1.targetY = 1 / 2) :=
  ⟨(processFrame_at_endFrame sqrtStub (processorWith [layerLong] [layerAuto]) (1920, 1080) 400
      (Or.inl ⟨layerLong, by simp [getActiveManualLayer, processorWith, toInt, layerLong],
        by simp [layerLong], by simp [isInt32, layerLong], by simp [layerLong],
        by simp [layerLong], by simp [layerLong]⟩)).1,
   (processFrame_at_endFrame sqrtStub (processorWith [] [layerAuto]) (1920, 1080) 500
      (Or.inr ⟨by simp [getActiveManualLayer, processorWith], layerAuto,
        by simp [getActiveAutoLayer, processorWith, toInt, layerAuto],
        by simp [layerAuto], by simp [isInt32, layerAuto], by simp [layerAuto],
        by simp [layerAuto], by simp [layerAuto]⟩)).1,
   (processFrame_at_endFrame sqrtStub (processorWith [] [layerAuto]) (1920, 1080) 500
      (Or.inr ⟨by simp [getActiveManualLayer, processorWith], layerAuto,
        by simp [getActiveAutoLayer, processorWith, toInt, layerAuto],
        by simp [layerAuto], by simp [isInt32, layerAuto], by simp [layerAuto],
        by simp [layerAuto], by simp [layerAuto]⟩)).2
      (by simp [getActiveManualLayer, processorWith])⟩

theorem scenario_active (os : Int × Int) (ff : Bool) (ty : ZoomType) (cd : Option CursorData)
    (sv : SmoothedValues) (f : Nat) (h : f ≤ 90) :
    getActiveManualLayer (scenarioProcessor os ff ty cd sv).config (toInt f)
      = some scenarioLayer := by
  have h1 : toInt f = (f : Int) := toInt_of_lt f (by omega)
  have h2 : (f : Int) ≤ 90 := by omega
  simp [getActiveManualLayer, scenarioProcessor, scenarioLayer, h1, h2]

theorem scenario_scale (sqrt : ℚ → ℚ) (os : Int × Int) (ff : Bool) (ty : ZoomType)
    (cd : Option CursorData) (sv : SmoothedValues) (inputSize : Int × Int) (f : Nat)
    (h : f ≤ 90) :
    (processFrame sqrt (scenarioProcessor os ff ty cd sv) inputSize f).1.scale
      = manualScale scenarioLayer f := by
  rw [processFrame_scale, evalZoom_manual _ _ _ _ (scenario_active os ff ty cd sv f h)]

/-- C1, counterexample: with the single manual layer of the scenario, the scale computed
by `processFrame` at frame 60 is 1, not 2: frame 60 is the first frame of the end window
(`60 ≥ 90 - 30`), where the ease-out starts from `endScale = 1`. -/
theorem scenario_scale_frame60_counterexample :
    (processFrame sqrtStub
        (scenarioProcessor (0, 0) true ZoomType.Manual none
          { lastX := 1 / 2, lastY := 1 / 2, lastScale := 1 }) (1920, 1080) 60).1.scale = 1 ∧
    (processFrame sqrtStub
        (scenarioProcessor (0, 0) true ZoomType.Manual none
          { lastX := 1 / 2, lastY := 1 / 2, lastScale := 1 }) (1920, 1080) 60).1.scale ≠ 2 := by
  have hv : (processFrame sqrtStub
        (scenarioProcessor (0, 0) true ZoomType.Manual none
          { lastX := 1 / 2, lastY := 1 / 2, lastScale := 1 }) (1920, 1080) 60).1.scale = 1 := by
    rw [scenario_scale _ _ _ _ _ _ _ 60 (by norm_num)]
    simp [manualScale, scenarioLayer, toULong, TRANSITION_FRAMES, clampD, easeInOutQuad]
  refine ⟨hv, ?_⟩
  rw [hv]
  norm_num

/-- C1, amended: for a configuration holding the single manual layer of the scenario and
no auto layer, in any processor state, the scale computed by `processFrame` is 1 at frame
0, 2 at frame 30, 2 at every frame strictly between 30 and 60, 1 at frame 60 (the first
frame of the end window) and 1 at frame 90. -/
theorem scenario_scales (sqrt : ℚ → ℚ) (os : Int × Int) (ff : Bool) (ty : ZoomType)
    (cd : Option CursorData) (sv : SmoothedValues) (inputSize : Int × Int) :
    (processFrame sqrt (scenarioProcessor os ff ty cd sv) inputSize 0).1.scale = 1 ∧
    (processFrame sqrt (scenarioProcessor os ff ty cd sv) inputSize 30).1.scale = 2 ∧
    (∀ f : Nat, 30 < f → f < 60 →
      (processFrame sqrt (scenarioProcessor os ff ty cd sv) inputSize f).1.scale = 2) ∧
    (processFrame sqrt (scenarioProcessor os ff ty cd sv) inputSize 60).1.scale = 1 ∧
    (processFrame sqrt (scenarioProcessor os ff ty cd sv) inputSize 90).1.scale = 1 := by
  refine ⟨?_, ?_, ?_, ?_, ?_⟩
  · rw [scenario_scale _ _ _ _ _ _ _ 0 (by norm_num)]
    exact manualScale_at_start scenarioLayer 0 (by norm_num) (by simp [scenarioLayer])
  · rw [scenario_scale _ _ _ _ _ _ _ 30 (by norm_num)]
    exact manualScale_at_start_plus_window scenarioLayer 30 (by norm_num)
      (by simp [scenarioLayer])
  · intro f h1 h2
    rw [scenario_scale _ _ _ _ _ _ _ f (by omega)]
    have h3 : scenarioLayer.startFrame + 30 < (f : Int) := by
      simp only [scenarioLayer]; omega
    have h4 : (f : Int) < scenarioLayer.endFrame - 30 := by
      simp only [scenarioLayer]; omega
    exact manualScale_interior scenarioLayer f (by simp [isInt32, scenarioLayer])
      (by simp [isInt32, scenarioLayer]) h3 h4
  · rw [scenario_scale _ _ _ _ _ _ _ 60 (by norm_num)]
    simp [manualScale, scenarioLayer, toULong, TRANSITION_FRAMES, clampD, easeInOutQuad]
  · rw [scenario_scale _ _ _ _ _ _ _ 90 (by norm_num)]
    exact manualScale_at_end scenarioLayer 90 (by norm_num) (by simp [scenarioLayer])
      (by simp [scenarioLayer]) (by simp [scenarioLayer]) (by simp [scenarioLayer])

/-- Witness of C1 amended: the interior frame 45 has scale 2. -/
theorem scenario_scales_witness :
    (processFrame sqrtStub (scenarioProcessor (0, 0) true ZoomType.Manual none
        { lastX := 1 / 2, lastY := 1 / 2, lastScale := 1 }) (1920, 1080) 45).1.scale = 2 :=
  (scenario_scales sqrtStub (0, 0) true ZoomType.Manual none
      { lastX := 1 / 2, lastY := 1 / 2, lastScale := 1 } (1920, 1080)).2.2.1 45
    (by norm_num) (by norm_num)

theorem find_first_match {α : Type} (p : α → Bool) (l : List α) (h : ∃ a ∈ l, p a = true) :
    ∃ (k : Nat) (a : α), l[k]? = some a ∧ p a = true ∧
      (∀ j : Nat, j < k → ∀ b : α, l[j]? = some b → p b = false) ∧
      l.find? p = some a := by
  induction l with
  | nil => simp at h
  | cons x xs ih =>
    by_cases hx : p x = true
    · refine ⟨0, x, by simp, hx, ?_, by simp [List.find?, hx]⟩
      intro j hj
      omega
    · have hx0 : p x = false := by simpa using hx
      have h1 : ∃ a ∈ xs, p a = true := by
        rcases h with ⟨a, ha, hpa⟩
        rcases List.mem_cons.mp ha with rfl | hmem
        · exact absurd hpa hx
        · exact ⟨a, hmem, hpa⟩
      rcases ih h1 with ⟨k, a, hk, hpa, hfirst, hfind⟩
      refine ⟨k + 1, a, by simpa using hk, hpa, ?_, by simp [List.find?, hx0, hfind]⟩
      intro j hj b hb
      cases j with
      | zero =>
        simp at hb
        rw [← hb]
        exact hx0
      | succ j => exact hfirst j (by omega) b (by simpa using hb)

/-- C10: `getActiveManualLayer` returns nothing exactly when no manual layer covers the
frame; and for every frame `f` covered by some manual layer (with an `int` end frame)
there is a position `k` in declaration order whose layer `L` covers `f`, no layer before
`k` covers `f`, `getActiveManualLayer` returns `L`, and the pan target computed by
`processFrame` at `f` is `(L.targetX, L.targetY)`, whatever later manual layers and the
auto layers are. -/
theorem getActiveManualLayer_first_match (sqrt : ℚ → ℚ) (zp : ZoomProcessor)
    (inputSize : Int × Int) (frameIndex : Nat) :
    (∀ i : Int, getActiveManualLayer zp.config i = none ↔
        ∀ M ∈ zp.config.manualLayers, ¬ M.covers i) ∧
    ((∃ M ∈ zp.config.manualLayers, M.covers (frameIndex : Int) ∧ isInt32 M.endFrame) →
      ∃ (k : Nat) (L : ManualZoomLayer),
        zp.config.manualLayers[k]? = some L ∧ L.covers (frameIndex : Int) ∧
        (∀ j : Nat, j < k → ∀ M : ManualZoomLayer,
          zp.config.manualLayers[j]? = some M → ¬ M.covers (frameIndex : Int)) ∧
        getActiveManualLayer zp.config (toInt frameIndex) = some L ∧
        (processFrame sqrt zp inputSize frameIndex).1.targetX = L.targetX ∧
        (processFrame sqrt zp inputSize frameIndex).1.targetY = L.targetY) := by
  constructor
  · intro i
    unfold getActiveManualLayer ManualZoomLayer.covers
    rw [List.find?_eq_none]
    constructor
    · intro h M hM
      have := h M hM
      simpa using this
    · intro h M hM
      have := h M hM
      simpa using this
  · rintro ⟨M, hM, hcov, hi⟩
    have hf : frameIndex < 2147483648 := by
      unfold ManualZoomLayer.covers at hcov
      unfold isInt32 at hi
      omega
    have hti : toInt frameIndex = (frameIndex : Int) := toInt_of_lt frameIndex hf
    have hex : ∃ a ∈ zp.config.manualLayers,
        (decide ((frameIndex : Int) ≥ a.startFrame) && decide ((frameIndex : Int) ≤ a.endFrame))
          = true := by
      refine ⟨M, hM, ?_⟩
      unfold ManualZoomLayer.covers at hcov
      simpa using hcov
    rcases find_first_match _ _ hex with ⟨k, L, hk, hp, hfirst, hfind⟩
    have hact : getActiveManualLayer zp.config (toInt frameIndex) = some L := by
      rw [hti]
      exact hfind
    refine ⟨k, L, hk, ?_, ?_, hact, ?_, ?_⟩
    · unfold ManualZoomLayer.covers
      simpa using hp
    · intro j hj N hN
      have := hfirst j hj N hN
      unfold ManualZoomLayer.covers
      intro hc
      simp [hc.1, hc.2] at this
    · rw [processFrame_targetX, evalZoom_manual sqrt zp frameIndex L hact]
    · rw [processFrame_targetY, evalZoom_manual sqrt zp frameIndex L hact]

/-- Witness of C10: frame 120 is covered by the manual layers `layerShort` (declared
first), `layerLater` and `layerLong`, and the configuration also has an auto layer; the
lookup returns `layerShort` and the pan target is its `(1/4, 3/4)`. -/
theorem getActiveManualLayer_first_match_witness :
    getActiveManualLayer (processorWith [layerShort, layerLater, layerLong] [layerAuto]).config
      (toInt 120) = some layerShort ∧
    (processFrame sqrtStub (processorWith [layerShort, layerLater, layerLong] [layerAuto])
      (1920, 1080) 120).1.targetX = 1 / 4 ∧
    (processFrame sqrtStub (processorWith [layerShort, layerLater, layerLong] [layerAuto])
      (1920, 1080) 120).1.targetY = 3 / 4 := by
  obtain ⟨k, L, _, _, _, hact, hx, hy⟩ :=
    (getActiveManualLayer_first_match sqrtStub
      (processorWith [layerShort, layerLater, layerLong] [layerAuto]) (1920, 1080) 120).2
      ⟨layerLater, by simp [processorWith],
        by simp [ManualZoomLayer.covers, layerLater], by simp [isInt32, layerLater]⟩
  have hS : getActiveManualLayer
      (processorWith [layerShort, layerLater, layerLong] [layerAuto]).config (toInt 120)
        = some layerShort := by
    simp [getActiveManualLayer, processorWith, toInt, layerShort]
  have hL : L = layerShort := by
    rw [hS] at hact
    exact (Option.some.inj hact).symm
  subst hL
  exact ⟨hS, hx, hy⟩

/-! ## Correctness of the ordered search -/

theorem sortedTrack_le (ps : List CursorPosition) (h : SortedTrack ps) (i j : Nat)
    (hij : i ≤ j) (p q : CursorPosition) (hp : ps[i]? = some p) (hq : ps[j]? = some q) :
    p.timestamp ≤ q.timestamp := by
  rcases List.getElem?_eq_some.mp hp with ⟨hi, rfl⟩
  rcases List.getElem?_eq_some.mp hq with ⟨hj, rfl⟩
  rcases Nat.lt_or_eq_of_le hij with hlt | heq
  · exact (List.pairwise_iff_getElem.mp h) i j hi hj hlt
  · subst heq
    exact le_refl _

/-- The loop of `std::lower_bound` on a sorted track: when every sample before `first`
compares below `ts` and no sample from `first + count` on does, the returned index `r`
lies in `[first, first + count]` and separates the samples below `ts` from the others. -/
theorem lowerBoundLoop_spec (ps : List CursorPosition) (ts : ℚ) (hs : SortedTrack ps) :
    ∀ (fuel first count : Nat), count ≤ fuel → first + count ≤ ps.length →
      (∀ j : Nat, j < first → ∀ p : CursorPosition, ps[j]? = some p → (p.timestamp : ℚ) < ts) →
      (∀ j : Nat, first + count ≤ j → ∀ p : CursorPosition, ps[j]? = some p →
        ¬ ((p.timestamp : ℚ) < ts)) →
      first ≤ lowerBoundLoop ps ts fuel first count ∧
      lowerBoundLoop ps ts fuel first count ≤ first + count ∧
      (∀ j : Nat, j < lowerBoundLoop ps ts fuel first count → ∀ p : CursorPosition,
        ps[j]? = some p → (p.timestamp : ℚ) < ts) ∧
      (∀ j : Nat, lowerBoundLoop ps ts fuel first count ≤ j → ∀ p : CursorPosition,
        ps[j]? = some p → ¬ ((p.timestamp : ℚ) < ts)) := by
  intro fuel
  induction fuel with
  | zero =>
    intro first count hc hlen hlo hhi
    have h0 : count = 0 := by omega
    subst h0
    simp only [lowerBoundLoop]
    exact ⟨le_refl _, by omega, hlo, fun j hj => hhi j (by omega)⟩
  | succ fuel ih =>
    intro first count hc hlen hlo hhi
    by_cases h0 : count = 0
    · subst h0
      simp only [lowerBoundLoop, if_true]
      exact ⟨le_refl _, by omega, hlo, fun j hj => hhi j (by omega)⟩
    · have hm : first + count / 2 < ps.length := by omega
      have hget : ps[first + count / 2]? = some ps[first + count / 2] :=
        List.getElem?_eq_getElem hm
      simp only [lowerBoundLoop, h0, if_false, hget]
      by_cases hlt : ((ps[first + count / 2]).timestamp : ℚ) < ts
      · simp only [hlt, if_true]
        have hlo1 : ∀ j : Nat, j < first + count / 2 + 1 → ∀ p : CursorPosition,
            ps[j]? = some p → (p.timestamp : ℚ) < ts := by
          intro j hj p hp
          have hle := sortedTrack_le ps hs j (first + count / 2) (by omega) p _ hp hget
          have hle1 : (p.timestamp : ℚ) ≤ ((ps[first + count / 2]).timestamp : ℚ) := by
            exact_mod_cast hle
          exact lt_of_le_of_lt hle1 hlt
        have hhi1 : ∀ j : Nat, first + count / 2 + 1 + (count - (count / 2 + 1)) ≤ j →
            ∀ p : CursorPosition, ps[j]? = some p → ¬ ((p.timestamp : ℚ) < ts) := by
          intro j hj
          exact hhi j (by omega)
        have hr := ih (first + count / 2 + 1) (count - (count / 2 + 1)) (by omega) (by omega)
          hlo1 hhi1
        exact ⟨by omega, by omega, hr.2.2.1, hr.2.2.2⟩
      · simp only [hlt, if_false]
        have hhi1 : ∀ j : Nat, first + count / 2 ≤ j → ∀ p : CursorPosition,
            ps[j]? = some p → ¬ ((p.timestamp : ℚ) < ts) := by
          intro j hj p hp hplt
          have hle := sortedTrack_le ps hs (first + count / 2) j hj _ p hget hp
          have hle1 : ((ps[first + count / 2]).timestamp : ℚ) ≤ (p.timestamp : ℚ) := by
            exact_mod_cast hle
          exact hlt (lt_of_le_of_lt hle1 hplt)
        have hr := ih first (count / 2) (by omega) (by omega) hlo hhi1
        exact ⟨hr.1, by omega, hr.2.2.1, hr.2.2.2⟩

theorem lowerBound_spec (ps : List CursorPosition) (ts : ℚ) (hs : SortedTrack ps) :
    lowerBound ps ts ≤ ps.length ∧
    (∀ j : Nat, j < lowerBound ps ts → ∀ p : CursorPosition,
      ps[j]? = some p → (p.timestamp : ℚ) < ts) ∧
    (∀ j : Nat, lowerBound ps ts ≤ j → ∀ p : CursorPosition,
      ps[j]? = some p → ¬ ((p.timestamp : ℚ) < ts)) := by
  have h := lowerBoundLoop_spec ps ts hs ps.length 0 ps.length (le_refl _) (by omega)
    (fun j hj => absurd hj (Nat.not_lt_zero j))
    (fun j hj p hp => by
      have := (List.getElem?_eq_some.mp hp).1
      omega)
  unfold lowerBound
  exact ⟨by omega, h.2.2.1, h.2.2.2⟩

/-- On a sorted track the search returns `k` as soon as every sample before `k` is below
`ts` and the sample at `k`, if any, is not. -/
theorem lowerBound_eq (ps : List CursorPosition) (ts : ℚ) (hs : SortedTrack ps) (k : Nat)
    (hk : k ≤ ps.length)
    (hlo : ∀ j : Nat, j < k → ∀ p : CursorPosition, ps[j]? = some p → (p.timestamp : ℚ) < ts)
    (hhi : ∀ p : CursorPosition, ps[k]? = some p → ¬ ((p.timestamp : ℚ) < ts)) :
    lowerBound ps ts = k := by
  obtain ⟨hlen, h1, h2⟩ := lowerBound_spec ps ts hs
  rcases Nat.lt_trichotomy (lowerBound ps ts) k with hlt | heq | hgt
  · have hb : lowerBound ps ts < ps.length := by omega
    have hget := List.getElem?_eq_getElem hb
    exact absurd (hlo _ hlt _ hget) (h2 _ (le_refl _) _ hget)
  · exact heq
  · have hb : k < ps.length := by omega
    have hget := List.getElem?_eq_getElem hb
    exact absurd (h1 k hgt _ hget) (hhi _ hget)

theorem truncToInt_intCast (z : Int) : truncToInt (z : ℚ) = z := by
  unfold truncToInt
  rw [Rat.num_intCast, Rat.den_intCast]
  exact Int.tdiv_one z

theorem truncToInt_of_nonneg (q : ℚ) (h : 0 ≤ q) : truncToInt q = ⌊q⌋ := by
  unfold truncToInt
  rw [Rat.floor_def, Int.tdiv_eq_ediv (Rat.num_nonneg.mpr h) (by positivity)]

/-- The branch `it == positions.begin()`. -/
theorem getPositionAtFrame_of_begin (cd : CursorData) (f : Int) (first : CursorPosition)
    (hfirst : cd.positions.head? = some first)
    (h : lowerBound cd.positions (((f : ℚ) * 1000) / cd.fps) = 0) :
    getPositionAtFrame cd f = first := by
  obtain ⟨ps, vd, fps⟩ := cd
  cases ps with
  | nil => simp at hfirst
  | cons p0 rest =>
    simp only [List.head?_cons, Option.some.injEq] at hfirst
    simp only at h
    simp only [getPositionAtFrame, h, if_true]
    exact hfirst

/-- The branch `it == positions.end()`. -/
theorem getPositionAtFrame_of_end (cd : CursorData) (f : Int) (last : CursorPosition)
    (hlast : cd.positions.getLast? = some last)
    (h : lowerBound cd.positions (((f : ℚ) * 1000) / cd.fps) = cd.positions.length) :
    getPositionAtFrame cd f = last := by
  obtain ⟨ps, vd, fps⟩ := cd
  cases ps with
  | nil => simp at hlast
  | cons p0 rest =>
    simp only at h hlast
    rw [List.getLast?_eq_getLast _ (List.cons_ne_nil p0 rest)] at hlast
    have hne : ¬ ((p0 :: rest).length = 0) := by simp
    simp only [getPositionAtFrame, h, hne, if_true, if_false]
    exact Option.some.inj hlast

/-- The interpolation branch: `it` is neither `begin()` nor `end()`. -/
theorem getPositionAtFrame_of_inner (cd : CursorData) (f : Int) (k : Nat)
    (prev next : CursorPosition)
    (hprev : cd.positions[k]? = some prev) (hnext : cd.positions[k + 1]? = some next)
    (h : lowerBound cd.positions (((f : ℚ) * 1000) / cd.fps) = k + 1) :
    getPositionAtFrame cd f =
      { x := prev.x + ((((f : ℚ) * 1000) / cd.fps - (prev.timestamp : ℚ)) /
            (((next.timestamp - prev.timestamp : Int)) : ℚ)) * (next.x - prev.x)
        y := prev.y + ((((f : ℚ) * 1000) / cd.fps - (prev.timestamp : ℚ)) /
            (((next.timestamp - prev.timestamp : Int)) : ℚ)) * (next.y - prev.y)
        timestamp := truncToInt (((f : ℚ) * 1000) / cd.fps)
        cursorType := next.cursorType } := by
  obtain ⟨ps, vd, fps⟩ := cd
  cases ps with
  | nil => simp at hprev
  | cons p0 rest =>
    simp only at h hprev hnext
    have hlen : k + 1 < (p0 :: rest).length := (List.getElem?_eq_some.mp hnext).1
    have h1 : ¬ (k + 1 = 0) := by omega
    have h2 : ¬ (k + 1 = (p0 :: rest).length) := by omega
    have hn : (p0 :: rest).getD (k + 1) p0 = next := by
      rw [List.getD_eq_getElem?_getD, hnext]
      rfl
    have hp : (p0 :: rest).getD (k + 1 - 1) p0 = prev := by
      rw [List.getD_eq_getElem?_getD, Nat.add_sub_cancel, hprev]
      rfl
    simp only [getPositionAtFrame, h, h1, h2, if_false, hn, hp]

/-- C3: on a non-empty sorted track, when the target time `f * 1000 / fps` (with
`fps ≠ 0`) precedes the timestamp of the first sample, `getPositionAtFrame` returns the
first stored sample, all four fields unchanged. -/
theorem getPositionAtFrame_before_first (cd : CursorData) (f : Int) (first : CursorPosition)
    (hs : SortedTrack cd.positions) (hfirst : cd.positions.head? = some first)
    (_hfps : cd.fps ≠ 0)
    (hT : ((f : ℚ) * 1000) / cd.fps < (first.timestamp : ℚ)) :
    getPositionAtFrame cd f = first := by
  apply getPositionAtFrame_of_begin cd f first hfirst
  apply lowerBound_eq _ _ hs 0 (Nat.zero_le _)
  · intro j hj
    exact absurd hj (Nat.not_lt_zero j)
  · intro p hp
    rw [← List.head?_eq_getElem?, hfirst] at hp
    cases hp
    exact not_lt.mpr (le_of_lt hT)

/-- Witness of C3: frame 3 (100 ms) of `trackLate`, whose first sample is at 500 ms. -/
theorem getPositionAtFrame_before_first_witness :
    getPositionAtFrame trackLate 3
      = { x := 1 / 4, y := 1 / 4, timestamp := 500, cursorType := 65539 } :=
  getPositionAtFrame_before_first trackLate 3
    { x := 1 / 4, y := 1 / 4, timestamp := 500, cursorType := 65539 }
    (by simp [SortedTrack, trackLate]) (by simp [trackLate]) (by simp [trackLate])
    (by norm_num [trackLate])

/-- C2: on a sorted track, for `fps > 0` and a frame index `f ≥ 0` whose target time
`T = f * 1000 / fps` is greater than the first timestamp and not greater than the last,
there are consecutive samples `prev`, `next` such that `next` is the first stored sample
with timestamp `≥ T`, and `getPositionAtFrame` returns
`x = prev.x + t * (next.x - prev.x)`, `y = prev.y + t * (next.y - prev.y)` with
`t = (T - prev.timestamp) / (next.timestamp - prev.timestamp)`, the cursor type of
`next`, and `T` truncated to an integer (its floor, as `T ≥ 0`) as timestamp. -/
theorem getPositionAtFrame_interpolates (cd : CursorData) (f : Int)
    (first last : CursorPosition) (hs : SortedTrack cd.positions)
    (hfirst : cd.positions.head? = some first) (hlast : cd.positions.getLast? = some last)
    (hfps : 0 < cd.fps) (hf : 0 ≤ f)
    (h1 : (first.timestamp : ℚ) < ((f : ℚ) * 1000) / cd.fps)
    (h2 : ((f : ℚ) * 1000) / cd.fps ≤ (last.timestamp : ℚ)) :
    ∃ (k : Nat) (prev next : CursorPosition),
      cd.positions[k]? = some prev ∧ cd.positions[k + 1]? = some next ∧
      (∀ j : Nat, j ≤ k → ∀ p : CursorPosition, cd.positions[j]? = some p →
        (p.timestamp : ℚ) < ((f : ℚ) * 1000) / cd.fps) ∧
      ((f : ℚ) * 1000) / cd.fps ≤ (next.timestamp : ℚ) ∧
      getPositionAtFrame cd f =
        { x := prev.x + ((((f : ℚ) * 1000) / cd.fps - (prev.timestamp : ℚ)) /
              ((next.timestamp : ℚ) - (prev.timestamp : ℚ))) * (next.x - prev.x)
          y := prev.y + ((((f : ℚ) * 1000) / cd.fps - (prev.timestamp : ℚ)) /
              ((next.timestamp : ℚ) - (prev.timestamp : ℚ))) * (next.y - prev.y)
          timestamp := ⌊((f : ℚ) * 1000) / cd.fps⌋
          cursorType := next.cursorType } := by
  obtain ⟨hlen, hlo, hhi⟩ := lowerBound_spec cd.positions (((f : ℚ) * 1000) / cd.fps) hs
  have hr0 : lowerBound cd.positions (((f : ℚ) * 1000) / cd.fps) ≠ 0 := by
    intro h0
    rw [List.head?_eq_getElem?] at hfirst
    exact hhi 0 (by omega) first hfirst h1
  have hrl : lowerBound cd.positions (((f : ℚ) * 1000) / cd.fps) ≠ cd.positions.length := by
    intro hl
    rw [List.getLast?_eq_getElem?] at hlast
    have hpos : 0 < cd.positions.length := by omega
    exact absurd (hlo (cd.positions.length - 1) (by omega) last hlast) (not_lt.mpr h2)
  obtain ⟨k, hk⟩ : ∃ k : Nat, lowerBound cd.positions (((f : ℚ) * 1000) / cd.fps) = k + 1 :=
    ⟨lowerBound cd.positions (((f : ℚ) * 1000) / cd.fps) - 1, by omega⟩
  have hk1 : k + 1 < cd.positions.length := by omega
  have hk0 : k < cd.positions.length := by omega
  have hprev := List.getElem?_eq_getElem hk0
  have hnext := List.getElem?_eq_getElem hk1
  have hT0 : 0 ≤ ((f : ℚ) * 1000) / cd.fps := by
    have : (0 : ℚ) ≤ (f : ℚ) := by exact_mod_cast hf
    positivity
  refine ⟨k, cd.positions[k], cd.positions[k + 1], hprev, hnext, ?_, ?_, ?_⟩
  · intro j hj
    exact hlo j (by omega)
  · exact not_lt.mp (hhi (k + 1) (by omega) _ hnext)
  · rw [getPositionAtFrame_of_inner cd f k _ _ hprev hnext hk, truncToInt_of_nonneg _ hT0]
    push_cast
    rfl

/-- Witness of C2: samples `(0,0)` at 0 ms and `(1,1)` at 1000 ms read at 30 fps; frame 15
(500 ms) gives `x = y = 0.5`, timestamp 500 and the cursor type of the later sample. -/
theorem getPositionAtFrame_interpolates_witness :
    getPositionAtFrame trackTwo 15
      = { x := 1 / 2, y := 1 / 2, timestamp := 500, cursorType := 65541 } := by
  obtain ⟨k, prev, next, hprev, hnext, _, _, hres⟩ :=
    getPositionAtFrame_interpolates trackTwo 15
      { x := 0, y := 0, timestamp := 0, cursorType := 65539 }
      { x := 1, y := 1, timestamp := 1000, cursorType := 65541 }
      (by simp [SortedTrack, trackTwo]) (by simp [trackTwo]) (by simp [trackTwo])
      (by norm_num [trackTwo]) (by norm_num) (by norm_num [trackTwo])
      (by norm_num [trackTwo])
  have hk : k = 0 := by
    have := (List.getElem?_eq_some.mp hnext).1
    simp [trackTwo] at this
    omega
  subst hk
  simp [trackTwo] at hprev hnext
  subst hprev hnext
  rw [hres]
  norm_num [trackTwo]

/-- C4, counterexample: `trackTies` is sorted (equal timestamps allowed) and frame 30 at
30 fps has target time 1000 ms, the timestamp of its last sample; `getPositionAtFrame`
returns the fields of the first of the two samples stamped 1000 ms, not the last stored
sample. -/
theorem getPositionAtFrame_at_last_counterexample :
    SortedTrack trackTies.positions ∧
    trackTies.positions.getLast? =
      some { x := 4 / 5, y := 4 / 5, timestamp := 1000, cursorType := 65545 } ∧
    (1000 : ℚ) ≤ (((30 : Int) : ℚ) * 1000) / trackTies.fps ∧
    getPositionAtFrame trackTies 30 =
      { x := 1 / 5, y := 1 / 5, timestamp := 1000, cursorType := 65541 } ∧
    getPositionAtFrame trackTies 30 ≠
      { x := 4 / 5, y := 4 / 5, timestamp := 1000, cursorType := 65545 } := by
  have hv : getPositionAtFrame trackTies 30 =
      { x := 1 / 5, y := 1 / 5, timestamp := 1000, cursorType := 65541 } := by
    simp [getPositionAtFrame, trackTies, lowerBound, lowerBoundLoop, truncToInt]
  refine ⟨by simp [SortedTrack, trackTies], by simp [trackTies], by norm_num [trackTies],
    hv, ?_⟩
  rw [hv]
  simp

/-- C4, amended: on a non-empty sorted track (equal timestamps allowed), when the target
time `T = f * 1000 / fps` (with `fps ≠ 0`) is at or beyond the timestamp of the last
sample, and, in case `T` equals that timestamp, no earlier sample carries it,
`getPositionAtFrame` returns the last stored sample: its `x`, `y`, timestamp and cursor
type. -/
theorem getPositionAtFrame_at_or_after_last (cd : CursorData) (f : Int)
    (last : CursorPosition) (hs : SortedTrack cd.positions)
    (hlast : cd.positions.getLast? = some last) (_hfps : cd.fps ≠ 0)
    (hT : (last.timestamp : ℚ) ≤ ((f : ℚ) * 1000) / cd.fps)
    (hstrict : ((f : ℚ) * 1000) / cd.fps = (last.timestamp : ℚ) →
      ∀ j : Nat, j + 1 < cd.positions.length → ∀ p : CursorPosition,
        cd.positions[j]? = some p → p.timestamp < last.timestamp) :
    getPositionAtFrame cd f = last := by
  have hlast1 := hlast
  rw [List.getLast?_eq_getElem?] at hlast1
  have hpos : 0 < cd.positions.length := by
    have := (List.getElem?_eq_some.mp hlast1).1
    omega
  rcases lt_or_eq_of_le hT with hgt | heq
  · apply getPositionAtFrame_of_end cd f last hlast
    apply lowerBound_eq _ _ hs _ (le_refl _)
    · intro j hj p hp
      have hle := sortedTrack_le _ hs j (cd.positions.length - 1) (by omega) p last hp hlast1
      have hle1 : (p.timestamp : ℚ) ≤ (last.timestamp : ℚ) := by exact_mod_cast hle
      exact lt_of_le_of_lt hle1 hgt
    · intro p hp
      have := (List.getElem?_eq_some.mp hp).1
      omega
  · have hst := hstrict heq.symm
    have hsearch : lowerBound cd.positions (((f : ℚ) * 1000) / cd.fps)
        = cd.positions.length - 1 := by
      apply lowerBound_eq _ _ hs _ (by omega)
      · intro j hj p hp
        rw [← heq]
        exact_mod_cast hst j (by omega) p hp
      · intro p hp
        rw [hlast1] at hp
        cases hp
        rw [← heq]
        exact lt_irrefl _
    rcases Nat.eq_or_lt_of_le (Nat.succ_le_of_lt hpos) with hone | htwo
    · have hfirst : cd.positions.head? = some last := by
        rw [List.head?_eq_getElem?]
        rw [← hone] at hlast1
        exact hlast1
      apply getPositionAtFrame_of_begin cd f last hfirst
      rw [hsearch]
      omega
    · obtain ⟨k, hk⟩ : ∃ k : Nat, cd.positions.length = k + 2 :=
        ⟨cd.positions.length - 2, by omega⟩
      have hk0 : k < cd.positions.length := by omega
      have hprev := List.getElem?_eq_getElem hk0
      have hnext : cd.positions[k + 1]? = some last := by
        rw [← hlast1]
        congr 1
        omega
      have hlt : (cd.positions[k]).timestamp < last.timestamp := hst k (by omega) _ hprev
      have hne : ((last.timestamp : ℚ) - ((cd.positions[k]).timestamp : ℚ)) ≠ 0 := by
        have : ((cd.positions[k]).timestamp : ℚ) < (last.timestamp : ℚ) := by exact_mod_cast hlt
        linarith
      rw [getPositionAtFrame_of_inner cd f k _ last hprev hnext (by rw [hsearch]; omega),
        ← heq, truncToInt_intCast]
      push_cast
      rw [div_self hne]
      cases last
      simp

/-- Witness of C4 amended: frame 30 of `trackTwo` has target time 1000 ms, the timestamp
of the last sample, which no earlier sample carries. -/
theorem getPositionAtFrame_at_or_after_last_witness :
    getPositionAtFrame trackTwo 30
      = { x := 1, y := 1, timestamp := 1000, cursorType := 65541 } :=
  getPositionAtFrame_at_or_after_last trackTwo 30
    { x := 1, y := 1, timestamp := 1000, cursorType := 65541 }
    (by simp [SortedTrack, trackTwo]) (by simp [trackTwo]) (by simp [trackTwo])
    (by norm_num [trackTwo])
    (by
      intro _ j hj p hp
      have hj0 : j = 0 := by
        simp [trackTwo] at hj
        omega
      subst hj0
      simp [trackTwo] at hp
      subst hp
      norm_num)

/-! ## The camera transform -/

theorem clampI_mem (v hi : Int) (h : 0 ≤ hi) : 0 ≤ clampI v 0 hi ∧ clampI v 0 hi ≤ hi := by
  unfold clampI
  split_ifs <;> omega

theorem truncToInt_mono_of_intCast_le (W : Int) (q : ℚ) (hW : 0 ≤ W) (h : (W : ℚ) ≤ q) :
    W ≤ truncToInt q := by
  have hq : 0 ≤ q := le_trans (by exact_mod_cast hW) h
  rw [truncToInt_of_nonneg q hq]
  exact Int.le_floor.mpr h

theorem truncToInt_lt_of_lt_intCast (W : Int) (q : ℚ) (hq : 0 ≤ q) (h : q < (W : ℚ)) :
    truncToInt q < W := by
  rw [truncToInt_of_nonneg q hq]
  exact Int.floor_lt.mpr h

theorem getActiveManualLayer_none_of_not_covers (cfg : ZoomConfig) (i : Int)
    (h : ∀ M ∈ cfg.manualLayers, ¬ M.covers i) : getActiveManualLayer cfg i = none := by
  unfold getActiveManualLayer
  rw [List.find?_eq_none]
  intro M hM
  have := h M hM
  unfold ManualZoomLayer.covers at this
  simpa using this

theorem getActiveAutoLayer_none_of_not_covers (cfg : ZoomConfig) (i : Int)
    (h : ∀ A ∈ cfg.autoLayers, ¬ A.covers i) : getActiveAutoLayer cfg i = none := by
  unfold getActiveAutoLayer
  rw [List.find?_eq_none]
  intro A hA
  have := h A hA
  unfold AutoZoomLayer.covers at this
  simpa using this

theorem evalZoom_no_layer (sqrt : ℚ → ℚ) (zp : ZoomProcessor) (f : Nat)
    (hm : getActiveManualLayer zp.config (toInt f) = none)
    (ha : getActiveAutoLayer zp.config (toInt f) = none) :
    evalZoom sqrt zp f = ({ scale := 1, targetX := 1 / 2, targetY := 1 / 2 }, zp.smoothedValues) := by
  unfold evalZoom
  rw [hm, ha]

/-- C11: at a frame `f` (an `int` value) covered by no manual layer and by no auto layer,
`processFrame` uses scale 1 and pan target `(0.5, 0.5)`; the resized image has the
original size, the crop rectangle is the whole frame at origin `(0, 0)`, and the
smoothing state is left unchanged. -/
theorem processFrame_no_layer (sqrt : ℚ → ℚ) (zp : ZoomProcessor) (inputSize : Int × Int)
    (frameIndex : Nat) (hf : frameIndex < 2147483648)
    (hm : ∀ M ∈ zp.config.manualLayers, ¬ M.covers (frameIndex : Int))
    (ha : ∀ A ∈ zp.config.autoLayers, ¬ A.covers (frameIndex : Int)) :
    (processFrame sqrt zp inputSize frameIndex).1.scale = 1 ∧
    (processFrame sqrt zp inputSize frameIndex).1.targetX = 1 / 2 ∧
    (processFrame sqrt zp inputSize frameIndex).1.targetY = 1 / 2 ∧
    (processFrame sqrt zp inputSize frameIndex).1.newWidth
      = (processFrame sqrt zp inputSize frameIndex).1.roiWidth ∧
    (processFrame sqrt zp inputSize frameIndex).1.newHeight
      = (processFrame sqrt zp inputSize frameIndex).1.roiHeight ∧
    (processFrame sqrt zp inputSize frameIndex).1.roiWidth
      = (if zp.firstFrame then inputSize else zp.originalSize).1 ∧
    (processFrame sqrt zp inputSize frameIndex).1.roiHeight
      = (if zp.firstFrame then inputSize else zp.originalSize).2 ∧
    (processFrame sqrt zp inputSize frameIndex).1.x = 0 ∧
    (processFrame sqrt zp inputSize frameIndex).1.y = 0 ∧
    (processFrame sqrt zp inputSize frameIndex).2.smoothedValues = zp.smoothedValues := by
  have hti : toInt frameIndex = (frameIndex : Int) := toInt_of_lt frameIndex hf
  have hm1 := getActiveManualLayer_none_of_not_covers zp.config (toInt frameIndex)
    (by rw [hti]; exact hm)
  have ha1 := getActiveAutoLayer_none_of_not_covers zp.config (toInt frameIndex)
    (by rw [hti]; exact ha)
  have hev := evalZoom_no_layer sqrt zp frameIndex hm1 ha1
  simp only [processFrame, hev, mul_one, truncToInt_intCast, sub_self, Int.cast_zero,
    zero_mul]
  have h0 : truncToInt 0 = 0 := by simpa using truncToInt_intCast 0
  simp [h0, clampI]

/-- Witness of C11: frame 50 of a processor whose only layers are `layerLong` (frames 100
to 400) and `layerAuto` (frames 200 to 500), on a 1920 by 1080 frame. -/
theorem processFrame_no_layer_witness :
    (processFrame sqrtStub (processorWith [layerLong] [layerAuto]) (1920, 1080) 50).1.scale = 1 ∧
    (processFrame sqrtStub (processorWith [layerLong] [layerAuto]) (1920, 1080) 50).1.newWidth
      = 1920 ∧
    (processFrame sqrtStub (processorWith [layerLong] [layerAuto]) (1920, 1080) 50).1.x = 0 ∧
    (processFrame sqrtStub (processorWith [layerLong] [layerAuto]) (1920, 1080) 50).2.smoothedValues
      = { lastX := 1 / 2, lastY := 1 / 2, lastScale := 1 } := by
  have h := processFrame_no_layer sqrtStub (processorWith [layerLong] [layerAuto])
    (1920, 1080) 50 (by norm_num)
    (by simp [processorWith, ManualZoomLayer.covers, layerLong])
    (by simp [processorWith, AutoZoomLayer.covers, layerAuto])
  refine ⟨h.1, ?_, h.2.2.2.2.2.2.2.1, ?_⟩
  · rw [h.2.2.2.1, h.2.2.2.2.2.1]
    simp [processorWith]
  · rw [h.2.2.2.2.2.2.2.2.2]
    simp [processorWith]

theorem processFrame_result (sqrt : ℚ → ℚ) (zp : ZoomProcessor) (inputSize : Int × Int)
    (f : Nat) (p : ZoomParams) (os : Int × Int) (hp : (evalZoom sqrt zp f).1 = p)
    (hos : (if zp.firstFrame then inputSize else zp.originalSize) = os) :
    (processFrame sqrt zp inputSize f).1 =
      { scale := p.scale, targetX := p.targetX, targetY := p.targetY
        newWidth := truncToInt ((os.1 : ℚ) * p.scale)
        newHeight := truncToInt ((os.2 : ℚ) * p.scale)
        x := clampI (truncToInt (((truncToInt ((os.1 : ℚ) * p.scale) - os.1 : Int) : ℚ)
          * p.targetX)) 0 (truncToInt ((os.1 : ℚ) * p.scale) - os.1)
        y := clampI (truncToInt (((truncToInt ((os.2 : ℚ) * p.scale) - os.2 : Int) : ℚ)
          * p.targetY)) 0 (truncToInt ((os.2 : ℚ) * p.scale) - os.2)
        roiWidth := os.1, roiHeight := os.2 } := by
  subst hp hos
  rfl

/-- C13: whenever the frame size `W x H` kept by `processFrame` is positive and the
evaluated scale is at least 1, for any pan target (also outside `[0,1]`): the resized size
is `newW = trunc(W * scale)`, `newH = trunc(H * scale)`, the crop origin is
`x = clamp(trunc((newW - W) * targetX), 0, newW - W)` and `y` likewise, the crop rectangle
`(x, y, W, H)` lies inside the `newW x newH` image, and the output has size `W x H`. -/
theorem processFrame_crop_inside (sqrt : ℚ → ℚ) (zp : ZoomProcessor) (inputSize : Int × Int)
    (frameIndex : Nat) (r : FrameResult)
    (hr : r = (processFrame sqrt zp inputSize frameIndex).1)
    (hW : 0 < r.roiWidth) (hH : 0 < r.roiHeight) (hs : 1 ≤ r.scale) :
    r.newWidth = truncToInt ((r.roiWidth : ℚ) * r.scale) ∧
    r.newHeight = truncToInt ((r.roiHeight : ℚ) * r.scale) ∧
    r.x = clampI (truncToInt (((r.newWidth - r.roiWidth : Int) : ℚ) * r.targetX)) 0
      (r.newWidth - r.roiWidth) ∧
    r.y = clampI (truncToInt (((r.newHeight - r.roiHeight : Int) : ℚ) * r.targetY)) 0
      (r.newHeight - r.roiHeight) ∧
    (0 ≤ r.x ∧ r.x + r.roiWidth ≤ r.newWidth) ∧
    (0 ≤ r.y ∧ r.y + r.roiHeight ≤ r.newHeight) ∧
    outputSize r = some (r.roiWidth, r.roiHeight) := by
  have e1 : r.newWidth = truncToInt ((r.roiWidth : ℚ) * r.scale) := by subst hr; rfl
  have e2 : r.newHeight = truncToInt ((r.roiHeight : ℚ) * r.scale) := by subst hr; rfl
  have e3 : r.x = clampI (truncToInt (((r.newWidth - r.roiWidth : Int) : ℚ) * r.targetX)) 0
      (r.newWidth - r.roiWidth) := by subst hr; rfl
  have e4 : r.y = clampI (truncToInt (((r.newHeight - r.roiHeight : Int) : ℚ) * r.targetY)) 0
      (r.newHeight - r.roiHeight) := by subst hr; rfl
  have hWq : (0 : ℚ) < (r.roiWidth : ℚ) := by exact_mod_cast hW
  have hHq : (0 : ℚ) < (r.roiHeight : ℚ) := by exact_mod_cast hH
  have w1 : r.roiWidth ≤ r.newWidth := by
    rw [e1]
    exact truncToInt_mono_of_intCast_le _ _ (le_of_lt hW) (by nlinarith)
  have w2 : r.roiHeight ≤ r.newHeight := by
    rw [e2]
    exact truncToInt_mono_of_intCast_le _ _ (le_of_lt hH) (by nlinarith)
  have cx := clampI_mem (truncToInt (((r.newWidth - r.roiWidth : Int) : ℚ) * r.targetX))
    (r.newWidth - r.roiWidth) (by omega)
  have cy := clampI_mem (truncToInt (((r.newHeight - r.roiHeight : Int) : ℚ) * r.targetY))
    (r.newHeight - r.roiHeight) (by omega)
  rw [← e3] at cx
  rw [← e4] at cy
  have hx : 0 ≤ r.x ∧ r.x + r.roiWidth ≤ r.newWidth := ⟨cx.1, by omega⟩
  have hy : 0 ≤ r.y ∧ r.y + r.roiHeight ≤ r.newHeight := ⟨cy.1, by omega⟩
  refine ⟨e1, e2, e3, e4, hx, hy, ?_⟩
  unfold outputSize
  rw [if_pos]
  exact ⟨by omega, by omega, hx.1, le_of_lt hW, hx.2, hy.1, le_of_lt hH, hy.2⟩

theorem evalZoom_offTarget :
    (evalZoom sqrtStub (processorWith [layerOffTarget] []) 100).1
      = { scale := 2, targetX := 3, targetY := -2 } := by
  rw [evalZoom_manual sqrtStub _ 100 layerOffTarget
      (by simp [getActiveManualLayer, processorWith, toInt, layerOffTarget]),
    manualScale_interior layerOffTarget 100 (by simp [isInt32, layerOffTarget])
      (by simp [isInt32, layerOffTarget]) (by simp [layerOffTarget])
      (by simp [layerOffTarget])]
  simp [layerOffTarget]

theorem processFrame_offTarget :
    (processFrame sqrtStub (processorWith [layerOffTarget] []) (1920, 1080) 100).1 =
      { scale := 2, targetX := 3, targetY := -2, newWidth := 3840, newHeight := 2160
        x := 1920, y := 0, roiWidth := 1920, roiHeight := 1080 } := by
  rw [processFrame_result sqrtStub _ (1920, 1080) 100 _ (1920, 1080) evalZoom_offTarget rfl]
  norm_num [truncToInt, clampI]

/-- Witness of C13: frame 100 of `layerOffTarget` (scale 2, pan target `(3, -2)`) on a
1920 by 1080 frame: the crop origin is clamped to `(1920, 0)` inside the 3840 by 2160
image and the output is 1920 by 1080. -/
theorem processFrame_crop_inside_witness :
    (0 ≤ (1920 : Int) ∧ (1920 : Int) + 1920 ≤ 3840) ∧
    (0 ≤ (0 : Int) ∧ (0 : Int) + 1080 ≤ 2160) ∧
    outputSize { scale := 2, targetX := 3, targetY := -2, newWidth := 3840, newHeight := 2160
                 x := 1920, y := 0, roiWidth := 1920, roiHeight := 1080 }
      = some (1920, 1080) :=
  (processFrame_crop_inside sqrtStub (processorWith [layerOffTarget] []) (1920, 1080) 100
    { scale := 2, targetX := 3, targetY := -2, newWidth := 3840, newHeight := 2160
      x := 1920, y := 0, roiWidth := 1920, roiHeight := 1080 }
    processFrame_offTarget.symm (by norm_num) (by norm_num) (by norm_num)).2.2.2.2

theorem evalZoom_shrink :
    (evalZoom sqrtStub (processorWith [layerShrink] []) 100).1
      = { scale := 1 / 2, targetX := 1 / 2, targetY := 1 / 2 } := by
  rw [evalZoom_manual sqrtStub _ 100 layerShrink
      (by simp [getActiveManualLayer, processorWith, toInt, layerShrink]),
    manualScale_interior layerShrink 100 (by simp [isInt32, layerShrink])
      (by simp [isInt32, layerShrink]) (by simp [layerShrink])
      (by simp [layerShrink])]
  simp [layerShrink]

/-- For every positive frame width and every evaluated scale in `[0, 1)` the resized image
is narrower than the crop rectangle, so `zoomed(roi)` throws. -/
theorem processFrame_shrink_never_fits (sqrt : ℚ → ℚ) (zp : ZoomProcessor)
    (inputSize : Int × Int) (frameIndex : Nat)
    (hW : 0 < (processFrame sqrt zp inputSize frameIndex).1.roiWidth)
    (hs0 : 0 ≤ (processFrame sqrt zp inputSize frameIndex).1.scale)
    (hs1 : (processFrame sqrt zp inputSize frameIndex).1.scale < 1) :
    (processFrame sqrt zp inputSize frameIndex).1.newWidth
      < (processFrame sqrt zp inputSize frameIndex).1.roiWidth ∧
    outputSize (processFrame sqrt zp inputSize frameIndex).1 = none := by
  have e1 : (processFrame sqrt zp inputSize frameIndex).1.newWidth =
      truncToInt (((processFrame sqrt zp inputSize frameIndex).1.roiWidth : ℚ) *
        (processFrame sqrt zp inputSize frameIndex).1.scale) := rfl
  have hWq : (0 : ℚ) < ((processFrame sqrt zp inputSize frameIndex).1.roiWidth : ℚ) := by
    exact_mod_cast hW
  have hlt : (processFrame sqrt zp inputSize frameIndex).1.newWidth
      < (processFrame sqrt zp inputSize frameIndex).1.roiWidth := by
    rw [e1]
    exact truncToInt_lt_of_lt_intCast _ _ (by positivity) (by nlinarith)
  refine ⟨hlt, ?_⟩
  unfold outputSize
  rw [if_neg]
  intro h
  omega

/-- C14, the code at the failing input: frame 100 of the manual layer `layerShrink`
(`startScale = 0.5`) on a 1920 by 1080 frame is evaluated at scale 0.5; the resized image
is 960 by 540, the clamp bounds `0` and `960 - 1920` are inverted and the crop origin comes
out as `(-960, -540)`; the crop rectangle keeps the original size 1920 by 1080 and does not
fit in the resized image for any origin: `zoomed(roi)` throws and no output frame is
produced. -/
theorem processFrame_shrink_fails :
    (processFrame sqrtStub (processorWith [layerShrink] []) (1920, 1080) 100).1 =
      { scale := 1 / 2, targetX := 1 / 2, targetY := 1 / 2, newWidth := 960, newHeight := 540
        x := -960, y := -540, roiWidth := 1920, roiHeight := 1080 } ∧
    outputSize (processFrame sqrtStub (processorWith [layerShrink] []) (1920, 1080) 100).1
      = none := by
  have h : (processFrame sqrtStub (processorWith [layerShrink] []) (1920, 1080) 100).1 =
      { scale := 1 / 2, targetX := 1 / 2, targetY := 1 / 2, newWidth := 960, newHeight := 540
        x := -960, y := -540, roiWidth := 1920, roiHeight := 1080 } := by
    rw [processFrame_result sqrtStub _ (1920, 1080) 100 _ (1920, 1080) evalZoom_shrink rfl]
    norm_num [truncToInt, clampI]
  refine ⟨h, ?_⟩
  rw [h]
  simp [outputSize]

/-! ## Auto zoom -/

theorem clampD_unit (v : ℚ) : 0 ≤ clampD v 0 1 ∧ clampD v 0 1 ≤ 1 := by
  unfold clampD
  split_ifs <;> constructor <;> linarith

theorem clampD_mono (v w lo hi : ℚ) (hlh : lo ≤ hi) (h : v ≤ w) :
    clampD v lo hi ≤ clampD w lo hi := by
  unfold clampD
  split_ifs <;> linarith

theorem easeInOutQuad_nonneg (t : ℚ) (h0 : 0 ≤ t) (h1 : t ≤ 1) : 0 ≤ easeInOutQuad t := by
  unfold easeInOutQuad
  split_ifs with h
  · positivity
  · nlinarith

theorem calculateAutoZoom_scale (sqrt : ℚ → ℚ) (sv : SmoothedValues) (layer : AutoZoomLayer)
    (c : CursorPosition) (f : Nat) :
    (calculateAutoZoom sqrt sv layer c f).1.scale =
      if f ≤ toULong (layer.startFrame + TRANSITION_FRAMES) then
        1 + (smoothedScale sv layer (distanceFromCenter sqrt sv layer c) - 1) *
          easeInOutQuad (clampD ((toULong ((f : Int) - layer.startFrame) : ℚ) /
            (TRANSITION_FRAMES : ℚ)) 0 1)
      else if f ≥ toULong (layer.endFrame - TRANSITION_FRAMES) then
        smoothedScale sv layer (distanceFromCenter sqrt sv layer c) +
          (1 - smoothedScale sv layer (distanceFromCenter sqrt sv layer c)) *
          (1 - easeInOutQuad (clampD ((toULong (layer.endFrame - (f : Int)) : ℚ) /
            (TRANSITION_FRAMES : ℚ)) 0 1))
      else smoothedScale sv layer (distanceFromCenter sqrt sv layer c) := by
  unfold calculateAutoZoom smoothedScale distanceFromCenter
  split_ifs <;> rfl

theorem smoothedScale_antitone (sv : SmoothedValues) (layer : AutoZoomLayer) (d1 d2 : ℚ)
    (hmm : layer.minScale ≤ layer.maxScale) (hs1 : layer.smoothing ≤ 1) (hd : d1 ≤ d2) :
    smoothedScale sv layer d2 ≤ smoothedScale sv layer d1 := by
  unfold smoothedScale smoothValue
  have hraw : layer.minScale + (layer.maxScale - layer.minScale) * (1 - d2) ≤
      layer.minScale + (layer.maxScale - layer.minScale) * (1 - d1) := by
    have : 0 ≤ layer.maxScale - layer.minScale := by linarith
    nlinarith
  have hc := clampD_mono _ _ layer.minScale layer.maxScale hmm hraw
  have h1 : 0 ≤ 1 - layer.smoothing := by linarith
  nlinarith

/-- With the rational square root `Rat.sqrt`, exact on squares, in place of `std::sqrt`:
the computed distance is `r` as soon as the squared offsets sum to `r * r`, `r ≥ 0`. -/
theorem distanceFromCenter_ratSqrt (sv : SmoothedValues) (layer : AutoZoomLayer)
    (c : CursorPosition) (r : ℚ) (hr : 0 ≤ r)
    (h : (smoothValue sv.lastX c.x layer.smoothing - 1 / 2) *
          (smoothValue sv.lastX c.x layer.smoothing - 1 / 2) +
        (smoothValue sv.lastY c.y layer.smoothing - 1 / 2) *
          (smoothValue sv.lastY c.y layer.smoothing - 1 / 2) = r * r) :
    distanceFromCenter Rat.sqrt sv layer c = r := by
  unfold distanceFromCenter
  simp only []
  rw [h, Rat.sqrt_eq, abs_of_nonneg hr]

/-- C12, counterexample: for the auto layer `layerAutoHalf` (scales 1 to 2, smoothing
0.5), the prior state `stateRight` and the interior frame 500, the cursor sample
`cursorLeft` is farther from the centre than `cursorCentre`, yet `calculateAutoZoom`
produces the larger scale `3/2` for it, against `7/5` for `cursorCentre`: the distance the
code measures is that of the smoothed pan position. -/
theorem calculateAutoZoom_scale_counterexample :
    (cursorCentre.x - 1 / 2) ^ 2 + (cursorCentre.y - 1 / 2) ^ 2
      ≤ (cursorLeft.x - 1 / 2) ^ 2 + (cursorLeft.y - 1 / 2) ^ 2 ∧
    (calculateAutoZoom Rat.sqrt stateRight layerAutoHalf cursorCentre 500).1.scale = 7 / 5 ∧
    (calculateAutoZoom Rat.sqrt stateRight layerAutoHalf cursorLeft 500).1.scale = 3 / 2 ∧
    ¬ ((calculateAutoZoom Rat.sqrt stateRight layerAutoHalf cursorLeft 500).1.scale
        ≤ (calculateAutoZoom Rat.sqrt stateRight layerAutoHalf cursorCentre 500).1.scale) := by
  have hbr1 : ¬ ((500 : Nat) ≤ toULong (layerAutoHalf.startFrame + TRANSITION_FRAMES)) := by
    simp [toULong, layerAutoHalf, TRANSITION_FRAMES]
  have hbr2 : ¬ ((500 : Nat) ≥ toULong (layerAutoHalf.endFrame - TRANSITION_FRAMES)) := by
    simp [toULong, layerAutoHalf, TRANSITION_FRAMES]
  have hd1 : distanceFromCenter Rat.sqrt stateRight layerAutoHalf cursorCentre = 1 / 5 :=
    distanceFromCenter_ratSqrt _ _ _ (1 / 5) (by norm_num)
      (by norm_num [smoothValue, stateRight, layerAutoHalf, cursorCentre])
  have hd2 : distanceFromCenter Rat.sqrt stateRight layerAutoHalf cursorLeft = 0 :=
    distanceFromCenter_ratSqrt _ _ _ 0 (by norm_num)
      (by norm_num [smoothValue, stateRight, layerAutoHalf, cursorLeft])
  have hv1 : (calculateAutoZoom Rat.sqrt stateRight layerAutoHalf cursorCentre 500).1.scale
      = 7 / 5 := by
    rw [calculateAutoZoom_scale, if_neg hbr1, if_neg hbr2, hd1]
    norm_num [smoothedScale, smoothValue, clampD, stateRight, layerAutoHalf]
  have hv2 : (calculateAutoZoom Rat.sqrt stateRight layerAutoHalf cursorLeft 500).1.scale
      = 3 / 2 := by
    rw [calculateAutoZoom_scale, if_neg hbr1, if_neg hbr2, hd2]
    norm_num [smoothedScale, smoothValue, clampD, stateRight, layerAutoHalf]
  refine ⟨by norm_num [cursorCentre, cursorLeft], hv1, hv2, ?_⟩
  rw [hv1, hv2]
  norm_num

/-- C12, amended: for a fixed auto layer with `minScale ≤ maxScale` and smoothing in
`[0,1]`, a fixed prior smoothing state and a fixed frame index: if the distance from the
centre that `calculateAutoZoom` computes for cursor sample `c2` (the distance of the pan
position smoothed toward `c2`) is at least the one it computes for `c1`, then the scale
produced for `c2` is less than or equal to the scale produced for `c1`. -/
theorem calculateAutoZoom_scale_antitone (sqrt : ℚ → ℚ) (sv : SmoothedValues)
    (layer : AutoZoomLayer) (c1 c2 : CursorPosition) (f : Nat)
    (hmm : layer.minScale ≤ layer.maxScale)
    (_hs0 : 0 ≤ layer.smoothing) (hs1 : layer.smoothing ≤ 1)
    (hd : distanceFromCenter sqrt sv layer c1 ≤ distanceFromCenter sqrt sv layer c2) :
    (calculateAutoZoom sqrt sv layer c2 f).1.scale
      ≤ (calculateAutoZoom sqrt sv layer c1 f).1.scale := by
  have hL := smoothedScale_antitone sv layer _ _ hmm hs1 hd
  rw [calculateAutoZoom_scale, calculateAutoZoom_scale]
  split_ifs with h1 h2
  · have ht := easeInOutQuad_nonneg _
      (clampD_unit ((toULong ((f : Int) - layer.startFrame) : ℚ) /
        (TRANSITION_FRAMES : ℚ))).1
      (clampD_unit ((toULong ((f : Int) - layer.startFrame) : ℚ) /
        (TRANSITION_FRAMES : ℚ))).2
    nlinarith
  · have ht := easeInOutQuad_nonneg _
      (clampD_unit ((toULong (layer.endFrame - (f : Int)) : ℚ) /
        (TRANSITION_FRAMES : ℚ))).1
      (clampD_unit ((toULong (layer.endFrame - (f : Int)) : ℚ) /
        (TRANSITION_FRAMES : ℚ))).2
    nlinarith
  · exact hL

/-- Witness of C12 amended: from the seed state, with `Rat.sqrt` for the square root,
the distance computed for `cursorCentre` is 0 and the one computed for `cursorLeft` is
`1/5`, hence the scale for `cursorLeft` is not above the scale for `cursorCentre`. -/
theorem calculateAutoZoom_scale_antitone_witness :
    (calculateAutoZoom Rat.sqrt { lastX := 1 / 2, lastY := 1 / 2, lastScale := 1 }
        layerAutoHalf cursorLeft 500).1.scale
      ≤ (calculateAutoZoom Rat.sqrt { lastX := 1 / 2, lastY := 1 / 2, lastScale := 1 }
        layerAutoHalf cursorCentre 500).1.scale :=
  calculateAutoZoom_scale_antitone Rat.sqrt { lastX := 1 / 2, lastY := 1 / 2, lastScale := 1 }
    layerAutoHalf cursorCentre cursorLeft 500
    (by norm_num [layerAutoHalf]) (by norm_num [layerAutoHalf]) (by norm_num [layerAutoHalf])
    (by
      rw [distanceFromCenter_ratSqrt _ _ cursorCentre 0 (by norm_num)
          (by norm_num [smoothValue, layerAutoHalf, cursorCentre]),
        distanceFromCenter_ratSqrt _ _ cursorLeft (1 / 5) (by norm_num)
          (by norm_num [smoothValue, layerAutoHalf, cursorLeft])]
      norm_num)

/-! ## The cursor renderer -/

theorem resolveCursorType_not_loaded (st : CursorOverlay) (cursorType : Int)
    (h : st.isLoaded = false) : resolveCursorType st cursorType = none := by
  simp [resolveCursorType, h]

theorem overlay_of_resolve_none (rz : Resizer) (st : CursorOverlay) (frame : Mat Vec3b)
    (x y cursorType : Int) (scale : ℚ) (h : resolveCursorType st cursorType = none) :
    overlay rz st frame x y cursorType scale = OverlayOutcome.skipped := by
  unfold overlay
  rw [h]

theorem overlay_of_resolve_some (rz : Resizer) (st : CursorOverlay) (frame : Mat Vec3b)
    (x y cursorType t : Int) (scale : ℚ) (h : resolveCursorType st cursorType = some t) :
    overlay rz st frame x y cursorType scale = overlayResolved rz st frame x y t scale := by
  unfold overlay
  rw [h]

theorem loadCursors_isLoaded (st : CursorOverlay) (files : Int → Option (Mat Vec3b × Mat Nat)) :
    (loadCursors st files).1.isLoaded = true ↔ ∀ t ∈ cursorFiles, (files t).isSome = true := by
  simp only [loadCursors, loadCursorsLoop, cursorFiles, loadCursor, List.mem_cons,
    List.mem_singleton, List.not_mem_nil, or_false, forall_eq_or_imp, forall_eq]
  cases files 65539 <;> cases files 65541 <;> cases files 65551 <;> cases files 65567 <;>
    cases files 65569 <;> simp

theorem overlayMissingArrow_isLoaded : overlayMissingArrow.isLoaded = false := by
  have h := loadCursors_isLoaded CursorOverlay.init (filesExcept 65539)
  cases hb : (loadCursors CursorOverlay.init (filesExcept 65539)).1.isLoaded with
  | false => exact hb
  | true =>
    have h1 := h.mp hb 65539 (by simp [cursorFiles])
    simp [filesExcept] at h1

theorem overlayAllLoaded_isLoaded : overlayAllLoaded.isLoaded = true := by
  apply (loadCursors_isLoaded CursorOverlay.init (filesExcept 0)).mpr
  intro t ht
  simp only [cursorFiles, List.mem_cons, List.mem_singleton, List.not_mem_nil, or_false] at ht
  rcases ht with rfl | rfl | rfl | rfl | rfl <;> simp [filesExcept]

theorem resizeSprite_scale_one (rz : Resizer) (cursor : Mat Vec3b) (alpha : Mat Nat)
    (w h : Int) : resizeSprite rz cursor alpha 1 w h = (cursor, alpha) := by
  unfold resizeSprite
  rw [if_neg]
  norm_num

/-- C15, counterexample: after a `loadCursors` in which only `default.svg` (type 65539)
failed, the requested type 65539 has no sprite and the fallback type 65541 has one, yet
`overlay` returns at once and leaves the frame unchanged, although compositing the
fallback sprite would change the pixel at row 500, column 500. -/
theorem overlay_fallback_counterexample :
    (overlayMissingArrow.cursors 65539).isNone = true ∧
    (overlayMissingArrow.cursors 65541).isSome = true ∧
    overlay resizerNearest overlayMissingArrow frameDark 500 500 65539 1
      = OverlayOutcome.skipped ∧
    (frameAfter frameDark
      (overlay resizerNearest overlayMissingArrow frameDark 500 500 65539 1)).px 500 500
      = { b := 10, g := 20, r := 30 } ∧
    (frameAfter frameDark
      (overlayResolved resizerNearest overlayMissingArrow frameDark 500 500 65541 1)).px 500 500
      = { b := 255, g := 255, r := 255 } := by
  have hskip : overlay resizerNearest overlayMissingArrow frameDark 500 500 65539 1
      = OverlayOutcome.skipped :=
    overlay_of_resolve_none _ _ _ _ _ _ _
      (resolveCursorType_not_loaded _ _ overlayMissingArrow_isLoaded)
  refine ⟨?_, ?_, hskip, ?_, ?_⟩
  · simp [overlayMissingArrow, loadCursors, loadCursorsLoop, cursorFiles, loadCursor,
      filesExcept, mapSet, CursorOverlay.init]
  · simp [overlayMissingArrow, loadCursors, loadCursorsLoop, cursorFiles, loadCursor,
      filesExcept, mapSet, CursorOverlay.init]
  · rw [hskip]
    rfl
  · have h1 : truncToInt (128 : ℚ) = 128 := by simpa using truncToInt_intCast 128
    have h2 : truncToInt ((128 : ℚ) * (3 / 10)) = 38 := by
      rw [truncToInt_of_nonneg _ (by norm_num), Int.floor_eq_iff]
      norm_num
    have h3 : truncToInt (255 : ℚ) = 255 := by simpa using truncToInt_intCast 255
    simp [overlayResolved, overlayMissingArrow, loadCursors, loadCursorsLoop, cursorFiles,
      loadCursor, filesExcept, mapSet, CursorOverlay.init, scaledSize, resizeSprite_scale_one,
      placement, roiInside, blendRoi, blendPixel, floatToUchar, frameAfter, frameDark,
      solidBgr, solidGray, h1, h2, h3]

/-- C15, amended: `loadCursors` sets `isLoaded` exactly when all five sprites loaded.  In
a state with `isLoaded` set, when the requested type has no sprite and the fallback type
65541 has one, `overlay` composites the sprite of type 65541; with `isLoaded` unset, as
after a load in which any sprite failed, `overlay` returns at once for every requested
type, whether or not the fallback sprite loaded; and it returns at once when neither the
requested nor the fallback sprite exists. -/
theorem overlay_fallback (rz : Resizer) (st : CursorOverlay) (frame : Mat Vec3b)
    (x y cursorType : Int) (scale : ℚ) (files : Int → Option (Mat Vec3b × Mat Nat)) :
    ((loadCursors st files).1.isLoaded = true ↔ ∀ t ∈ cursorFiles, (files t).isSome = true) ∧
    (st.isLoaded = true → (st.cursors cursorType).isNone = true →
      (st.cursors 65541).isSome = true →
      overlay rz st frame x y cursorType scale = overlayResolved rz st frame x y 65541 scale) ∧
    (st.isLoaded = false →
      overlay rz st frame x y cursorType scale = OverlayOutcome.skipped) ∧
    ((st.cursors cursorType).isNone = true → (st.cursors 65541).isNone = true →
      overlay rz st frame x y cursorType scale = OverlayOutcome.skipped) := by
  refine ⟨loadCursors_isLoaded st files, ?_, ?_, ?_⟩
  · intro hl hn hf
    apply overlay_of_resolve_some
    have hf1 : (st.cursors 65541).isNone = false := by
      cases h : st.cursors 65541 with
      | none => rw [h] at hf; cases hf
      | some v => rfl
    simp [resolveCursorType, hl, hn, hf1]
  · intro hl
    exact overlay_of_resolve_none _ _ _ _ _ _ _ (resolveCursorType_not_loaded _ _ hl)
  · intro hn hf
    apply overlay_of_resolve_none
    simp [resolveCursorType, hn, hf]

/-- Witness of C15 amended: with all five sprites loaded, a request for the unknown type
12345 is drawn with the sprite of type 65541. -/
theorem overlay_fallback_witness :
    overlay resizerNearest overlayAllLoaded frameDark 500 500 12345 1
      = overlayResolved resizerNearest overlayAllLoaded frameDark 500 500 65541 1 :=
  (overlay_fallback resizerNearest overlayAllLoaded frameDark 500 500 12345 1
    (filesExcept 0)).2.1 overlayAllLoaded_isLoaded
    (by simp [overlayAllLoaded, loadCursors, loadCursorsLoop, cursorFiles, loadCursor,
      filesExcept, mapSet, CursorOverlay.init])
    (by simp [overlayAllLoaded, loadCursors, loadCursorsLoop, cursorFiles, loadCursor,
      filesExcept, mapSet, CursorOverlay.init])

theorem floatToUchar_natCast (n : Nat) : floatToUchar (n : ℚ) = n := by
  unfold floatToUchar
  have h : ((n : ℚ)) = (((n : Int)) : ℚ) := by push_cast; rfl
  rw [h, truncToInt_intCast]
  exact Int.toNat_natCast n

theorem blendPixel_opacity_zero (a : Nat) (pixel cursor_pixel : Vec3b) :
    blendPixel 0 a pixel cursor_pixel = pixel := by
  unfold blendPixel
  split_ifs
  · simp only [mul_zero, sub_zero, mul_one, add_zero, floatToUchar_natCast]
  · rfl

theorem blendRoi_opacity_zero (frame cursor : Mat Vec3b) (alpha : Mat Nat)
    (x y scaledWidth scaledHeight i j : Int) :
    (blendRoi 0 frame cursor alpha x y scaledWidth scaledHeight).px i j = frame.px i j := by
  simp only [blendRoi, blendPixel_opacity_zero, ite_self]

theorem overlayResolved_opacity_zero (rz : Resizer) (st : CursorOverlay) (frame : Mat Vec3b)
    (x y t : Int) (scale : ℚ) (h : st.settings.opacity = 0) :
    (frameAfter frame (overlayResolved rz st frame x y t scale)).rows = frame.rows ∧
    (frameAfter frame (overlayResolved rz st frame x y t scale)).cols = frame.cols ∧
    ∀ i j : Int,
      (frameAfter frame (overlayResolved rz st frame x y t scale)).px i j = frame.px i j := by
  unfold overlayResolved
  simp only [h]
  split_ifs
  all_goals
    refine ⟨rfl, rfl, ?_⟩
    intro i j
    simp only [frameAfter, blendRoi_opacity_zero]

/-- C16: when the opacity of the cursor style is 0, for every renderer state (sprites and
alpha bitmaps), frame, anchor point, cursor type and base scale, the frame after `overlay`
has the same size and the same pixel at every position. -/
theorem overlay_opacity_zero (rz : Resizer) (st : CursorOverlay) (frame : Mat Vec3b)
    (x y cursorType : Int) (scale : ℚ) (h : st.settings.opacity = 0) :
    (frameAfter frame (overlay rz st frame x y cursorType scale)).rows = frame.rows ∧
    (frameAfter frame (overlay rz st frame x y cursorType scale)).cols = frame.cols ∧
    ∀ i j : Int,
      (frameAfter frame (overlay rz st frame x y cursorType scale)).px i j = frame.px i j := by
  unfold overlay
  cases resolveCursorType st cursorType with
  | none => exact ⟨rfl, rfl, fun _ _ => rfl⟩
  | some t => exact overlayResolved_opacity_zero rz st frame x y t scale h

/-- Witness of C16: all sprites loaded, opacity set to 0, cursor drawn at `(500, 500)`:
the pixel under the sprite keeps its colour. -/
theorem overlay_opacity_zero_witness :
    (frameAfter frameDark
      (overlay resizerNearest
        (setSettings overlayAllLoaded { size := 1, opacity := 0, tintColor := 0, hasTint := false })
        frameDark 500 500 65539 1)).px 500 500 = { b := 10, g := 20, r := 30 } :=
  (overlay_opacity_zero resizerNearest
    (setSettings overlayAllLoaded { size := 1, opacity := 0, tintColor := 0, hasTint := false })
    frameDark 500 500 65539 1 rfl).2.2 500 500

/-- C17, the code at the failing input: a loaded sprite 10 wide and 128 high drawn at
`finalScale = 1`.  The minimum size raises `scaledWidth` to 16, so the scaled size is
`(16, 128)`, but no resize takes place (`|finalScale - 1| ≤ 0.001`): the bitmaps that are
composited are still 10 wide, not `max(16, trunc(10 * 1)) = 16`, and the index `(0, 10)`,
which the blending loop reads since `10 < scaledWidth`, lies outside both. -/
theorem resizeSprite_small_sprite_overread :
    scaledSize (10, 128) 1 = (16, 128) ∧
    (resizeSprite resizerNearest (solidBgr 128 10 { b := 255, g := 255, r := 255 })
      (solidGray 128 10 255) 1 16 128).1.cols = 10 ∧
    (resizeSprite resizerNearest (solidBgr 128 10 { b := 255, g := 255, r := 255 })
      (solidGray 128 10 255) 1 16 128).2.cols = 10 ∧
    ¬ (resizeSprite resizerNearest (solidBgr 128 10 { b := 255, g := 255, r := 255 })
      (solidGray 128 10 255) 1 16 128).1.inBounds 0 10 ∧
    ¬ (resizeSprite resizerNearest (solidBgr 128 10 { b := 255, g := 255, r := 255 })
      (solidGray 128 10 255) 1 16 128).2.inBounds 0 10 := by
  rw [resizeSprite_scale_one]
  have h1 : truncToInt (10 : ℚ) = 10 := by simpa using truncToInt_intCast 10
  have h2 : truncToInt (128 : ℚ) = 128 := by simpa using truncToInt_intCast 128
  refine ⟨?_, rfl, rfl, ?_, ?_⟩
  · simp [scaledSize, h1, h2]
  · simp [Mat.inBounds, solidBgr]
  · simp [Mat.inBounds, solidGray]

/-- The conditional resize of `overlay`: when `|finalScale - 1| > 0.001` both bitmaps get
width `max(16, trunc(w * finalScale))` and height `max(16, trunc(h * finalScale))`, so
every index `(i, j)` with `0 ≤ i < scaledHeight`, `0 ≤ j < scaledWidth` lies inside both;
when `|finalScale - 1| ≤ 0.001` no resize takes place and both bitmaps are the loaded
ones. -/
theorem resizeSprite_size (rz : Resizer) (cursor : Mat Vec3b) (alpha : Mat Nat)
    (originalSize : Int × Int) (finalScale : ℚ) :
    (|finalScale - 1| > 1 / 1000 →
      (resizeSprite rz cursor alpha finalScale (scaledSize originalSize finalScale).1
          (scaledSize originalSize finalScale).2).1.cols
        = max (truncToInt ((originalSize.1 : ℚ) * finalScale)) 16 ∧
      (resizeSprite rz cursor alpha finalScale (scaledSize originalSize finalScale).1
          (scaledSize originalSize finalScale).2).1.rows
        = max (truncToInt ((originalSize.2 : ℚ) * finalScale)) 16 ∧
      (resizeSprite rz cursor alpha finalScale (scaledSize originalSize finalScale).1
          (scaledSize originalSize finalScale).2).2.cols
        = max (truncToInt ((originalSize.1 : ℚ) * finalScale)) 16 ∧
      (resizeSprite rz cursor alpha finalScale (scaledSize originalSize finalScale).1
          (scaledSize originalSize finalScale).2).2.rows
        = max (truncToInt ((originalSize.2 : ℚ) * finalScale)) 16 ∧
      ∀ i j : Int, 0 ≤ i → i < (scaledSize originalSize finalScale).2 →
        0 ≤ j → j < (scaledSize originalSize finalScale).1 →
        (resizeSprite rz cursor alpha finalScale (scaledSize originalSize finalScale).1
          (scaledSize originalSize finalScale).2).1.inBounds i j ∧
        (resizeSprite rz cursor alpha finalScale (scaledSize originalSize finalScale).1
          (scaledSize originalSize finalScale).2).2.inBounds i j) ∧
    (|finalScale - 1| ≤ 1 / 1000 →
      resizeSprite rz cursor alpha finalScale (scaledSize originalSize finalScale).1
          (scaledSize originalSize finalScale).2 = (cursor, alpha)) := by
  constructor
  · intro h
    unfold resizeSprite
    rw [if_pos h]
    split_ifs
    · exact ⟨rfl, rfl, rfl, rfl, fun i j hi0 hi hj0 hj => ⟨⟨hi0, hi, hj0, hj⟩, ⟨hi0, hi, hj0, hj⟩⟩⟩
    · exact ⟨rfl, rfl, rfl, rfl, fun i j hi0 hi hj0 hj => ⟨⟨hi0, hi, hj0, hj⟩, ⟨hi0, hi, hj0, hj⟩⟩⟩
  · intro h
    unfold resizeSprite
    rw [if_neg (not_lt.mpr h)]

/-- An instance of `resizeSprite_size`: a 128 by 128 sprite at `finalScale = 1/2` is
resized to 64 by 64, and at `finalScale = 1` it is left as loaded. -/
theorem resizeSprite_size_witness :
    (resizeSprite resizerNearest (solidBgr 128 128 { b := 255, g := 255, r := 255 })
        (solidGray 128 128 255) (1 / 2) (scaledSize (128, 128) (1 / 2)).1
        (scaledSize (128, 128) (1 / 2)).2).1.cols
      = max (truncToInt (((128 : Int) : ℚ) * (1 / 2))) 16 ∧
    resizeSprite resizerNearest (solidBgr 128 128 { b := 255, g := 255, r := 255 })
        (solidGray 128 128 255) 1 (scaledSize (128, 128) 1).1 (scaledSize (128, 128) 1).2
      = (solidBgr 128 128 { b := 255, g := 255, r := 255 }, solidGray 128 128 255) :=
  ⟨((resizeSprite_size resizerNearest (solidBgr 128 128 { b := 255, g := 255, r := 255 })
      (solidGray 128 128 255) (128, 128) (1 / 2)).1 (by norm_num [abs_of_neg])).1,
   (resizeSprite_size resizerNearest (solidBgr 128 128 { b := 255, g := 255, r := 255 })
      (solidGray 128 128 255) (128, 128) 1).2 (by norm_num)⟩

/-- C18: for every frame at least as wide and as tall as the scaled sprite and every
anchor point `(x, y)`, inside the frame or not, the placement `(x', y')` computed by
`overlay` after the 30% offset and the clamping satisfies `0 ≤ x'`,
`x' + scaledWidth ≤ frame.cols`, `0 ≤ y'` and `y' + scaledHeight ≤ frame.rows`; with a
scaled size that is not negative the region of interest is accepted. -/
theorem placement_inside (frame : Mat Vec3b) (x y scaledWidth scaledHeight : Int)
    (hw : scaledWidth ≤ frame.cols) (hh : scaledHeight ≤ frame.rows) :
    0 ≤ (placement frame x y scaledWidth scaledHeight).1 ∧
    (placement frame x y scaledWidth scaledHeight).1 + scaledWidth ≤ frame.cols ∧
    0 ≤ (placement frame x y scaledWidth scaledHeight).2 ∧
    (placement frame x y scaledWidth scaledHeight).2 + scaledHeight ≤ frame.rows ∧
    (0 ≤ scaledWidth → 0 ≤ scaledHeight →
      roiInside frame (placement frame x y scaledWidth scaledHeight).1
        (placement frame x y scaledWidth scaledHeight).2 scaledWidth scaledHeight) := by
  have hx : 0 ≤ (placement frame x y scaledWidth scaledHeight).1 ∧
      (placement frame x y scaledWidth scaledHeight).1 + scaledWidth ≤ frame.cols := by
    simp only [placement]
    split_ifs <;> constructor <;> omega
  have hy : 0 ≤ (placement frame x y scaledWidth scaledHeight).2 ∧
      (placement frame x y scaledWidth scaledHeight).2 + scaledHeight ≤ frame.rows := by
    simp only [placement]
    split_ifs <;> constructor <;> omega
  exact ⟨hx.1, hx.2, hy.1, hy.2, fun h0 h1 => ⟨hx.1, h0, hx.2, hy.1, h1, hy.2⟩⟩

/-- Witness of C18: a 128 by 128 sprite anchored at `(-50, 5000)`, outside the 1920 by
1080 frame `frameDark`. -/
theorem placement_inside_witness :
    0 ≤ (placement frameDark (-50) 5000 128 128).1 ∧
    (placement frameDark (-50) 5000 128 128).1 + 128 ≤ frameDark.cols ∧
    0 ≤ (placement frameDark (-50) 5000 128 128).2 ∧
    (placement frameDark (-50) 5000 128 128).2 + 128 ≤ frameDark.rows :=
  ⟨(placement_inside frameDark (-50) 5000 128 128 (by simp [frameDark, solidBgr])
      (by simp [frameDark, solidBgr])).1,
   (placement_inside frameDark (-50) 5000 128 128 (by simp [frameDark, solidBgr])
      (by simp [frameDark, solidBgr])).2.1,
   (placement_inside frameDark (-50) 5000 128 128 (by simp [frameDark, solidBgr])
      (by simp [frameDark, solidBgr])).2.2.1,
   (placement_inside frameDark (-50) 5000 128 128 (by simp [frameDark, solidBgr])
      (by simp [frameDark, solidBgr])).2.2.2.1⟩

/-- The exact luma of the three values computed by `applyTint` is the luma of the input
pixel multiplied by the luma of the tint colour over 255. -/
theorem tintValues_luminance (pixel : Vec3b) (tintColor : Nat) :
    bt601 (tintValues pixel tintColor).2.2 (tintValues pixel tintColor).2.1
        (tintValues pixel tintColor).1
      = bt601 (pixel.r : ℚ) (pixel.g : ℚ) (pixel.b : ℚ) *
        (bt601 ((tintColor / 65536 % 256 : Nat) : ℚ) ((tintColor / 256 % 256 : Nat) : ℚ)
          ((tintColor % 256 : Nat) : ℚ) / 255) := by
  simp only [tintValues, bt601]
  ring

/-- C19, the code at the failing input: the white pixel `(255, 255, 255)` tinted with
opaque red `0xFFFF0000` (4294901760).  The values computed by `applyTint` are
`B = 0, G = 0, R = 255`, whose exact luma is `76.245`, while the luma of the input pixel is
255. -/
theorem applyTint_luminance_changes :
    tintValues { b := 255, g := 255, r := 255 } 4294901760 = (0, 0, 255) ∧
    applyTintPixel { b := 255, g := 255, r := 255 } 4294901760 = { b := 0, g := 0, r := 255 } ∧
    bt601 (tintValues { b := 255, g := 255, r := 255 } 4294901760).2.2
        (tintValues { b := 255, g := 255, r := 255 } 4294901760).2.1
        (tintValues { b := 255, g := 255, r := 255 } 4294901760).1 = 15249 / 200 ∧
    bt601 255 255 255 = 255 ∧
    bt601 (tintValues { b := 255, g := 255, r := 255 } 4294901760).2.2
        (tintValues { b := 255, g := 255, r := 255 } 4294901760).2.1
        (tintValues { b := 255, g := 255, r := 255 } 4294901760).1 ≠ bt601 255 255 255 := by
  have hv : tintValues { b := 255, g := 255, r := 255 } 4294901760 = (0, 0, 255) := by
    norm_num [tintValues]
  have hr0 : cvRound 0 = 0 := by norm_num [cvRound]
  have hr255 : cvRound 255 = 255 := by norm_num [cvRound]
  refine ⟨hv, ?_, ?_, ?_, ?_⟩
  · simp [applyTintPixel, hv, saturate_cast_uchar, hr0, hr255]
  · rw [hv]
    norm_num [bt601]
  · norm_num [bt601]
  · rw [hv]
    norm_num [bt601]

/-! ## The rounded-corner composite -/

/-- C20: when `cornerRadius` is 0, for every source frame of the canvas size, every
background colour and whatever the ellipse calls draw, the mask is 255 at every pixel of
the frame and the masked composite `roundedFrame` has the canvas size and equals the
source frame at every pixel. -/
theorem roundedFrame_radius_zero (ellipse : EllipseFill) (currentFrame : Mat Vec3b)
    (frameWidth frameHeight : Int) (color : Nat)
    (hrows : currentFrame.rows = frameHeight) (hcols : currentFrame.cols = frameWidth) :
    (roundedFrame ellipse currentFrame frameWidth frameHeight color 0).rows = currentFrame.rows ∧
    (roundedFrame ellipse currentFrame frameWidth frameHeight color 0).cols = currentFrame.cols ∧
    ∀ i j : Int, 0 ≤ i → i < frameHeight → 0 ≤ j → j < frameWidth →
      (cornerMask ellipse frameWidth frameHeight 0).px i j = 255 ∧
      (roundedFrame ellipse currentFrame frameWidth frameHeight color 0).px i j
        = currentFrame.px i j := by
  refine ⟨hrows.symm, hcols.symm, ?_⟩
  intro i j hi0 hi hj0 hj
  have ht0 : truncToInt 0 = 0 := by simpa using truncToInt_intCast 0
  have htw : truncToInt ((frameWidth : ℚ) - 0 - 1) = frameWidth - 1 := by
    have : (frameWidth : ℚ) - 0 - 1 = ((frameWidth - 1 : Int) : ℚ) := by push_cast; ring
    rw [this, truncToInt_intCast]
  have hrect : inFilledRectangle (truncToInt 0) 0
      (truncToInt ((frameWidth : ℚ) - 0 - 1)) (frameHeight - 1) i j := by
    rw [ht0, htw]
    unfold inFilledRectangle
    refine ⟨?_, ?_, ?_, ?_⟩
    · exact le_trans (min_le_left _ _) hj0
    · exact le_trans (by omega) (le_max_right _ _)
    · exact le_trans (min_le_left _ _) hi0
    · exact le_trans (by omega) (le_max_right _ _)
  have hmask : (cornerMask ellipse frameWidth frameHeight 0).px i j = 255 := by
    simp only [cornerMask]
    rw [if_pos ⟨hi0, hi, hj0, hj⟩, if_pos (Or.inl hrect)]
  refine ⟨hmask, ?_⟩
  simp only [roundedFrame]
  rw [hmask, if_pos (by norm_num)]

/-- Witness of C20: the 4 by 3 frame `frameSmall` on a 4 by 3 canvas with an opaque blue
background; the pixel at row 2, column 3 of the composite is the source pixel. -/
theorem roundedFrame_radius_zero_witness :
    (roundedFrame ellipseStub frameSmall 4 3 4278190335 0).px 2 3 = { b := 2, g := 3, r := 7 } :=
  ((roundedFrame_radius_zero ellipseStub frameSmall 4 3 4278190335 rfl rfl).2.2 2 3
    (by norm_num) (by norm_num) (by norm_num) (by norm_num)).2

/-! ## The easing curve -/

theorem easeInOutQuad_le_one (t : ℚ) (h0 : 0 ≤ t) (_h1 : t ≤ 1) : easeInOutQuad t ≤ 1 := by
  unfold easeInOutQuad
  split_ifs with h
  · nlinarith
  · nlinarith [sq_nonneg (-2 * t + 2)]

/-- C22: `easeInOutQuad` is 0 at 0 and 1 at 1; at `t = 0.5` both branch formulas give 0.5
and so does the function; on `[0,1]` it is monotonically non-decreasing and its values lie
in `[0,1]`. -/
theorem easeInOutQuad_properties :
    easeInOutQuad 0 = 0 ∧ easeInOutQuad 1 = 1 ∧
    ((2 : ℚ) * (1 / 2) * (1 / 2) = 1 / 2 ∧ (1 : ℚ) - (-2 * (1 / 2) + 2) ^ 2 / 2 = 1 / 2 ∧
      easeInOutQuad (1 / 2) = 1 / 2) ∧
    (∀ s t : ℚ, 0 ≤ s → s ≤ t → t ≤ 1 → easeInOutQuad s ≤ easeInOutQuad t) ∧
    (∀ t : ℚ, 0 ≤ t → t ≤ 1 → 0 ≤ easeInOutQuad t ∧ easeInOutQuad t ≤ 1) := by
  refine ⟨easeInOutQuad_zero, easeInOutQuad_one, ⟨by norm_num, by norm_num, ?_⟩, ?_, ?_⟩
  · norm_num [easeInOutQuad]
  · intro s t hs hst ht
    unfold easeInOutQuad
    split_ifs with h1 h2 h2
    · nlinarith
    · nlinarith [sq_nonneg (-2 * t + 2)]
    · linarith
    · nlinarith
  · intro t h0 h1
    exact ⟨easeInOutQuad_nonneg t h0 h1, easeInOutQuad_le_one t h0 h1⟩

/-- Witness of C22: the curve does not decrease from `t = 1/4` to `t = 3/4`. -/
theorem easeInOutQuad_properties_witness :
    easeInOutQuad (1 / 4) ≤ easeInOutQuad (3 / 4) :=
  easeInOutQuad_properties.2.2.2.1 (1 / 4) (3 / 4) (by norm_num) (by norm_num) (by norm_num)

/-! ## Safety of the interpolation -/

theorem lerp_between (a b t : ℚ) (h0 : 0 ≤ t) (h1 : t ≤ 1) :
    min a b ≤ a + t * (b - a) ∧ a + t * (b - a) ≤ max a b := by
  rcases le_total a b with hab | hab
  · rw [min_eq_left hab, max_eq_right hab]
    constructor <;> nlinarith
  · rw [min_eq_right hab, max_eq_left hab]
    constructor <;> nlinarith

/-- On a sorted track, when the search result is neither `begin()` nor `end()`, the
samples around it bracket the target time and the interpolation branch is taken. -/
theorem getPositionAtFrame_inner_of_sorted (cd : CursorData) (f : Int)
    (hs : SortedTrack cd.positions)
    (h0 : lowerBound cd.positions (((f : ℚ) * 1000) / cd.fps) ≠ 0)
    (hn : lowerBound cd.positions (((f : ℚ) * 1000) / cd.fps) ≠ cd.positions.length) :
    ∃ (k : Nat) (prev next : CursorPosition),
      lowerBound cd.positions (((f : ℚ) * 1000) / cd.fps) = k + 1 ∧
      cd.positions[k]? = some prev ∧ cd.positions[k + 1]? = some next ∧
      (prev.timestamp : ℚ) < ((f : ℚ) * 1000) / cd.fps ∧
      ((f : ℚ) * 1000) / cd.fps ≤ (next.timestamp : ℚ) ∧
      getPositionAtFrame cd f =
        { x := prev.x + ((((f : ℚ) * 1000) / cd.fps - (prev.timestamp : ℚ)) /
              (((next.timestamp - prev.timestamp : Int)) : ℚ)) * (next.x - prev.x)
          y := prev.y + ((((f : ℚ) * 1000) / cd.fps - (prev.timestamp : ℚ)) /
              (((next.timestamp - prev.timestamp : Int)) : ℚ)) * (next.y - prev.y)
          timestamp := truncToInt (((f : ℚ) * 1000) / cd.fps)
          cursorType := next.cursorType } := by
  obtain ⟨hlen, hlo, hhi⟩ := lowerBound_spec cd.positions (((f : ℚ) * 1000) / cd.fps) hs
  obtain ⟨k, hk⟩ : ∃ k : Nat, lowerBound cd.positions (((f : ℚ) * 1000) / cd.fps) = k + 1 :=
    ⟨lowerBound cd.positions (((f : ℚ) * 1000) / cd.fps) - 1, by omega⟩
  have hk1 : k + 1 < cd.positions.length := by omega
  have hk0 : k < cd.positions.length := by omega
  have hprev := List.getElem?_eq_getElem hk0
  have hnext := List.getElem?_eq_getElem hk1
  refine ⟨k, cd.positions[k], cd.positions[k + 1], hk, hprev, hnext, ?_, ?_, ?_⟩
  · exact hlo k (by omega) _ hprev
  · exact not_lt.mp (hhi (k + 1) (by omega) _ hnext)
  · exact getPositionAtFrame_of_inner cd f k _ _ hprev hnext hk

theorem interpolation_parameter_bounds (T : ℚ) (p n : Int) (h1 : (p : ℚ) < T)
    (h2 : T ≤ (n : ℚ)) :
    0 < n - p ∧ 0 < (T - (p : ℚ)) / (((n - p : Int)) : ℚ) ∧
      (T - (p : ℚ)) / (((n - p : Int)) : ℚ) ≤ 1 := by
  have hdq : (p : ℚ) < (n : ℚ) := lt_of_lt_of_le h1 h2
  have hd : 0 < n - p := by
    have : p < n := by exact_mod_cast hdq
    omega
  have hdq0 : (0 : ℚ) < (((n - p : Int)) : ℚ) := by exact_mod_cast hd
  refine ⟨hd, div_pos (by linarith) hdq0, ?_⟩
  rw [div_le_one hdq0]
  push_cast
  linarith

/-- C25: on a sorted track (equal timestamps allowed) read at `fps > 0`, whenever
`getPositionAtFrame` reaches its interpolation branch (the search result `it` is neither
`begin()` nor `end()`), with `prev` and `next` the samples at `it - 1` and `it`: the
divisor `next.timestamp - prev.timestamp` is strictly positive, the parameter `t`
satisfies `0 < t ≤ 1`, and the returned `x` and `y` lie between the coordinates of `prev`
and `next`. -/
theorem getPositionAtFrame_interpolation_safe (cd : CursorData) (f : Int)
    (hs : SortedTrack cd.positions) (_hfps : 0 < cd.fps)
    (h0 : lowerBound cd.positions (((f : ℚ) * 1000) / cd.fps) ≠ 0)
    (hn : lowerBound cd.positions (((f : ℚ) * 1000) / cd.fps) ≠ cd.positions.length) :
    ∃ (prev next : CursorPosition),
      cd.positions[lowerBound cd.positions (((f : ℚ) * 1000) / cd.fps) - 1]? = some prev ∧
      cd.positions[lowerBound cd.positions (((f : ℚ) * 1000) / cd.fps)]? = some next ∧
      0 < next.timestamp - prev.timestamp ∧
      0 < (((f : ℚ) * 1000) / cd.fps - (prev.timestamp : ℚ)) /
            (((next.timestamp - prev.timestamp : Int)) : ℚ) ∧
      (((f : ℚ) * 1000) / cd.fps - (prev.timestamp : ℚ)) /
            (((next.timestamp - prev.timestamp : Int)) : ℚ) ≤ 1 ∧
      (getPositionAtFrame cd f).x = prev.x +
        ((((f : ℚ) * 1000) / cd.fps - (prev.timestamp : ℚ)) /
          (((next.timestamp - prev.timestamp : Int)) : ℚ)) * (next.x - prev.x) ∧
      (getPositionAtFrame cd f).y = prev.y +
        ((((f : ℚ) * 1000) / cd.fps - (prev.timestamp : ℚ)) /
          (((next.timestamp - prev.timestamp : Int)) : ℚ)) * (next.y - prev.y) ∧
      (min prev.x next.x ≤ (getPositionAtFrame cd f).x ∧
        (getPositionAtFrame cd f).x ≤ max prev.x next.x) ∧
      (min prev.y next.y ≤ (getPositionAtFrame cd f).y ∧
        (getPositionAtFrame cd f).y ≤ max prev.y next.y) := by
  obtain ⟨k, prev, next, hk, hprev, hnext, hlt, hle, hres⟩ :=
    getPositionAtFrame_inner_of_sorted cd f hs h0 hn
  obtain ⟨hd, ht0, ht1⟩ := interpolation_parameter_bounds _ _ _ hlt hle
  refine ⟨prev, next, ?_, ?_, hd, ht0, ht1, ?_, ?_, ?_, ?_⟩
  · rw [hk, Nat.add_sub_cancel]
    exact hprev
  · rw [hk]
    exact hnext
  · rw [hres]
  · rw [hres]
  · rw [hres]
    exact lerp_between prev.x next.x _ (le_of_lt ht0) ht1
  · rw [hres]
    exact lerp_between prev.y next.y _ (le_of_lt ht0) ht1

theorem lowerBound_trackTies : lowerBound trackTies.positions (((15 : Int) : ℚ) * 1000 / trackTies.fps) = 1 := by
  simp [lowerBound, lowerBoundLoop, trackTies]
  norm_num

/-- Witness of C25: frame 15 (500 ms) of `trackTies`, a sorted track with two samples at
1000 ms; the search stops at index 1 and the divisor is `1000 - 0`. -/
theorem getPositionAtFrame_interpolation_safe_witness :
    ∃ (prev next : CursorPosition),
      trackTies.positions[lowerBound trackTies.positions
        ((((15 : Int) : ℚ) * 1000) / trackTies.fps) - 1]? = some prev ∧
      trackTies.positions[lowerBound trackTies.positions
        ((((15 : Int) : ℚ) * 1000) / trackTies.fps)]? = some next ∧
      0 < next.timestamp - prev.timestamp ∧
      0 < ((((15 : Int) : ℚ) * 1000) / trackTies.fps - (prev.timestamp : ℚ)) /
            (((next.timestamp - prev.timestamp : Int)) : ℚ) ∧
      ((((15 : Int) : ℚ) * 1000) / trackTies.fps - (prev.timestamp : ℚ)) /
            (((next.timestamp - prev.timestamp : Int)) : ℚ) ≤ 1 ∧
      (getPositionAtFrame trackTies 15).x = prev.x +
        (((((15 : Int) : ℚ) * 1000) / trackTies.fps - (prev.timestamp : ℚ)) /
          (((next.timestamp - prev.timestamp : Int)) : ℚ)) * (next.x - prev.x) ∧
      (getPositionAtFrame trackTies 15).y = prev.y +
        (((((15 : Int) : ℚ) * 1000) / trackTies.fps - (prev.timestamp : ℚ)) /
          (((next.timestamp - prev.timestamp : Int)) : ℚ)) * (next.y - prev.y) ∧
      (min prev.x next.x ≤ (getPositionAtFrame trackTies 15).x ∧
        (getPositionAtFrame trackTies 15).x ≤ max prev.x next.x) ∧
      (min prev.y next.y ≤ (getPositionAtFrame trackTies 15).y ∧
        (getPositionAtFrame trackTies 15).y ≤ max prev.y next.y) :=
  getPositionAtFrame_interpolation_safe trackTies 15 (by simp [SortedTrack, trackTies])
    (by norm_num [trackTies])
    (by rw [lowerBound_trackTies]; norm_num)
    (by rw [lowerBound_trackTies]; simp [trackTies])

/-! ## The cursor anchor -/

theorem smoothValue_mem (current target smoothing lo hi : ℚ)
    (hs0 : 0 ≤ smoothing) (hs1 : smoothing ≤ 1)
    (hc : lo ≤ current ∧ current ≤ hi) (ht : lo ≤ target ∧ target ≤ hi) :
    lo ≤ smoothValue current target smoothing ∧ smoothValue current target smoothing ≤ hi := by
  unfold smoothValue
  constructor <;> nlinarith

theorem smoothValue_ge (current target smoothing lo : ℚ)
    (hs0 : 0 ≤ smoothing) (hs1 : smoothing ≤ 1) (hc : lo ≤ current) (ht : lo ≤ target) :
    lo ≤ smoothValue current target smoothing := by
  unfold smoothValue
  nlinarith

theorem clampD_ge_lo (v lo hi : ℚ) (hlh : lo ≤ hi) : lo ≤ clampD v lo hi := by
  unfold clampD
  split_ifs <;> linarith

theorem calculateAutoZoom_state (sqrt : ℚ → ℚ) (sv : SmoothedValues) (layer : AutoZoomLayer)
    (c : CursorPosition) (f : Nat) :
    (calculateAutoZoom sqrt sv layer c f).2 =
      { lastX := smoothValue sv.lastX c.x layer.smoothing
        lastY := smoothValue sv.lastY c.y layer.smoothing
        lastScale := smoothedScale sv layer (distanceFromCenter sqrt sv layer c) } := by
  unfold calculateAutoZoom smoothedScale distanceFromCenter
  split_ifs <;> rfl

theorem calculateAutoZoom_output (sqrt : ℚ → ℚ) (sv : SmoothedValues) (layer : AutoZoomLayer)
    (c : CursorPosition) (f : Nat) :
    ∃ t : ℚ, 0 ≤ t ∧ t ≤ 1 ∧
      ((calculateAutoZoom sqrt sv layer c f).1 =
          { scale := 1 + ((calculateAutoZoom sqrt sv layer c f).2.lastScale - 1) * t
            targetX := 1 / 2 + ((calculateAutoZoom sqrt sv layer c f).2.lastX - 1 / 2) * t
            targetY := 1 / 2 + ((calculateAutoZoom sqrt sv layer c f).2.lastY - 1 / 2) * t } ∨
        (calculateAutoZoom sqrt sv layer c f).1 =
          { scale := (calculateAutoZoom sqrt sv layer c f).2.lastScale +
              (1 - (calculateAutoZoom sqrt sv layer c f).2.lastScale) * (1 - t)
            targetX := (calculateAutoZoom sqrt sv layer c f).2.lastX +
              (1 / 2 - (calculateAutoZoom sqrt sv layer c f).2.lastX) * (1 - t)
            targetY := (calculateAutoZoom sqrt sv layer c f).2.lastY +
              (1 / 2 - (calculateAutoZoom sqrt sv layer c f).2.lastY) * (1 - t) }) := by
  have u1 := clampD_unit ((toULong ((f : Int) - layer.startFrame) : ℚ) / (TRANSITION_FRAMES : ℚ))
  have u2 := clampD_unit ((toULong (layer.endFrame - (f : Int)) : ℚ) / (TRANSITION_FRAMES : ℚ))
  by_cases h1 : f ≤ toULong (layer.startFrame + TRANSITION_FRAMES)
  · refine ⟨easeInOutQuad (clampD ((toULong ((f : Int) - layer.startFrame) : ℚ) /
      (TRANSITION_FRAMES : ℚ)) 0 1), easeInOutQuad_nonneg _ u1.1 u1.2,
      easeInOutQuad_le_one _ u1.1 u1.2, Or.inl ?_⟩
    unfold calculateAutoZoom
    simp only [h1, if_true]
  · by_cases h2 : f ≥ toULong (layer.endFrame - TRANSITION_FRAMES)
    · refine ⟨easeInOutQuad (clampD ((toULong (layer.endFrame - (f : Int)) : ℚ) /
        (TRANSITION_FRAMES : ℚ)) 0 1), easeInOutQuad_nonneg _ u2.1 u2.2,
        easeInOutQuad_le_one _ u2.1 u2.2, Or.inr ?_⟩
      unfold calculateAutoZoom
      simp only [h1, h2, if_true, if_false]
    · refine ⟨1, by norm_num, by norm_num, Or.inl ?_⟩
      unfold calculateAutoZoom
      simp only [h1, h2, if_false, mul_one]
      simp

theorem calculateAutoZoom_inRange (sqrt : ℚ → ℚ) (sv : SmoothedValues) (c : AutoZoomCall)
    (hsv : sv.inRange) (hc : c.admissible) :
    (calculateAutoZoom sqrt sv c.layer c.cursorPos c.frameIndex).2.inRange ∧
    (calculateAutoZoom sqrt sv c.layer c.cursorPos c.frameIndex).1.inRange := by
  obtain ⟨hx, hy, hL⟩ := hsv
  obtain ⟨hcx, hcy, hsm, hmin, hmm⟩ := hc
  have hstate : (calculateAutoZoom sqrt sv c.layer c.cursorPos c.frameIndex).2.inRange := by
    rw [calculateAutoZoom_state]
    refine ⟨smoothValue_mem _ _ _ 0 1 hsm.1 hsm.2 hx hcx,
      smoothValue_mem _ _ _ 0 1 hsm.1 hsm.2 hy hcy, ?_⟩
    unfold smoothedScale
    exact smoothValue_ge _ _ _ 1 hsm.1 hsm.2 hL
      (le_trans hmin (clampD_ge_lo _ _ _ hmm))
  refine ⟨hstate, ?_⟩
  obtain ⟨⟨hX0, hX1⟩, ⟨hY0, hY1⟩, hS⟩ := hstate
  obtain ⟨t, ht0, ht1, hout | hout⟩ :=
    calculateAutoZoom_output sqrt sv c.layer c.cursorPos c.frameIndex
  · rw [hout]
    refine ⟨?_, ⟨?_, ?_⟩, ⟨?_, ?_⟩⟩ <;> simp only [] <;> nlinarith
  · rw [hout]
    refine ⟨?_, ⟨?_, ?_⟩, ⟨?_, ?_⟩⟩ <;> simp only [] <;> nlinarith

theorem runAutoZoom_inRange (sqrt : ℚ → ℚ) (calls : List AutoZoomCall) :
    ∀ sv : SmoothedValues, sv.inRange → (∀ c ∈ calls, c.admissible) →
      (runAutoZoom sqrt sv calls).inRange := by
  induction calls with
  | nil =>
    intro sv hsv _
    exact hsv
  | cons c rest ih =>
    intro sv hsv hall
    simp only [runAutoZoom]
    apply ih
    · exact (calculateAutoZoom_inRange sqrt sv c hsv (hall c (List.mem_cons_self c rest))).1
    · intro d hd
      exact hall d (List.mem_cons_of_mem c hd)

theorem crop_inside_of_one_le_scale (sqrt : ℚ → ℚ) (zp : ZoomProcessor)
    (inputSize : Int × Int) (f : Nat)
    (hW : 0 < (processFrame sqrt zp inputSize f).1.roiWidth)
    (hH : 0 < (processFrame sqrt zp inputSize f).1.roiHeight)
    (hs : 1 ≤ (processFrame sqrt zp inputSize f).1.scale) :
    (0 ≤ (processFrame sqrt zp inputSize f).1.x ∧
      (processFrame sqrt zp inputSize f).1.x + (processFrame sqrt zp inputSize f).1.roiWidth
        ≤ (processFrame sqrt zp inputSize f).1.newWidth) ∧
    (0 ≤ (processFrame sqrt zp inputSize f).1.y ∧
      (processFrame sqrt zp inputSize f).1.y + (processFrame sqrt zp inputSize f).1.roiHeight
        ≤ (processFrame sqrt zp inputSize f).1.newHeight) ∧
    outputSize (processFrame sqrt zp inputSize f).1
      = some ((processFrame sqrt zp inputSize f).1.roiWidth,
          (processFrame sqrt zp inputSize f).1.roiHeight) := by
  generalize hr : (processFrame sqrt zp inputSize f).1 = r at hW hH hs ⊢
  have e1 : r.newWidth = truncToInt ((r.roiWidth : ℚ) * r.scale) := by subst hr; rfl
  have e2 : r.newHeight = truncToInt ((r.roiHeight : ℚ) * r.scale) := by subst hr; rfl
  have e3 : r.x = clampI (truncToInt (((r.newWidth - r.roiWidth : Int) : ℚ) * r.targetX)) 0
      (r.newWidth - r.roiWidth) := by subst hr; rfl
  have e4 : r.y = clampI (truncToInt (((r.newHeight - r.roiHeight : Int) : ℚ) * r.targetY)) 0
      (r.newHeight - r.roiHeight) := by subst hr; rfl
  have hWq : (0 : ℚ) < (r.roiWidth : ℚ) := by exact_mod_cast hW
  have hHq : (0 : ℚ) < (r.roiHeight : ℚ) := by exact_mod_cast hH
  have w1 : r.roiWidth ≤ r.newWidth := by
    rw [e1]
    exact truncToInt_mono_of_intCast_le _ _ (le_of_lt hW) (by nlinarith)
  have w2 : r.roiHeight ≤ r.newHeight := by
    rw [e2]
    exact truncToInt_mono_of_intCast_le _ _ (le_of_lt hH) (by nlinarith)
  have cx := clampI_mem (truncToInt (((r.newWidth - r.roiWidth : Int) : ℚ) * r.targetX))
    (r.newWidth - r.roiWidth) (by omega)
  have cy := clampI_mem (truncToInt (((r.newHeight - r.roiHeight : Int) : ℚ) * r.targetY))
    (r.newHeight - r.roiHeight) (by omega)
  rw [← e3] at cx
  rw [← e4] at cy
  have hx : 0 ≤ r.x ∧ r.x + r.roiWidth ≤ r.newWidth := ⟨cx.1, by omega⟩
  have hy : 0 ≤ r.y ∧ r.y + r.roiHeight ≤ r.newHeight := ⟨cy.1, by omega⟩
  refine ⟨hx, hy, ?_⟩
  unfold outputSize
  rw [if_pos]
  exact ⟨by omega, by omega, hx.1, le_of_lt hW, hx.2, hy.1, le_of_lt hH, hy.2⟩

/-- C26: `setConfig` installs the state `(0.5, 0.5, 1)`; after any sequence of
`calculateAutoZoom` calls whose cursor samples lie in `[0,1] x [0,1]` and whose layers have
smoothing in `[0,1]` and `1 ≤ minScale ≤ maxScale`, the state has `lastX`, `lastY` in
`[0,1]` and `lastScale ≥ 1`; every further such call returns a scale `≥ 1` and a pan target
in `[0,1] x [0,1]`; and a `processFrame` call that evaluates an auto layer from that state
on a frame of positive size computes a crop rectangle inside the resized image and outputs
a frame of the original size. -/
theorem autoZoom_invariant (sqrt : ℚ → ℚ) (zp0 : ZoomProcessor) (cfg : ZoomConfig)
    (calls : List AutoZoomCall) (hcalls : ∀ c ∈ calls, c.admissible) :
    (setConfig zp0 cfg).smoothedValues = { lastX := 1 / 2, lastY := 1 / 2, lastScale := 1 } ∧
    (runAutoZoom sqrt (setConfig zp0 cfg).smoothedValues calls).inRange ∧
    (∀ c : AutoZoomCall, c.admissible →
      (calculateAutoZoom sqrt (runAutoZoom sqrt (setConfig zp0 cfg).smoothedValues calls)
        c.layer c.cursorPos c.frameIndex).1.inRange) ∧
    (∀ (zp : ZoomProcessor) (inputSize : Int × Int) (f : Nat) (A : AutoZoomLayer)
        (cd : CursorData),
      zp.smoothedValues = runAutoZoom sqrt (setConfig zp0 cfg).smoothedValues calls →
      getActiveManualLayer zp.config (toInt f) = none →
      getActiveAutoLayer zp.config (toInt f) = some A →
      zp.cursorData = some cd →
      AutoZoomCall.admissible
        { layer := A, cursorPos := getPositionAtFrame cd (toInt f), frameIndex := f } →
      0 < (processFrame sqrt zp inputSize f).1.roiWidth →
      0 < (processFrame sqrt zp inputSize f).1.roiHeight →
      1 ≤ (processFrame sqrt zp inputSize f).1.scale ∧
      (0 ≤ (processFrame sqrt zp inputSize f).1.x ∧
        (processFrame sqrt zp inputSize f).1.x + (processFrame sqrt zp inputSize f).1.roiWidth
          ≤ (processFrame sqrt zp inputSize f).1.newWidth) ∧
      (0 ≤ (processFrame sqrt zp inputSize f).1.y ∧
        (processFrame sqrt zp inputSize f).1.y + (processFrame sqrt zp inputSize f).1.roiHeight
          ≤ (processFrame sqrt zp inputSize f).1.newHeight) ∧
      outputSize (processFrame sqrt zp inputSize f).1
        = some ((processFrame sqrt zp inputSize f).1.roiWidth,
            (processFrame sqrt zp inputSize f).1.roiHeight)) := by
  have hseed : ((setConfig zp0 cfg).smoothedValues).inRange := by
    simp only [setConfig, SmoothedValues.inRange]
    norm_num
  have hrun := runAutoZoom_inRange sqrt calls _ hseed hcalls
  refine ⟨rfl, hrun, ?_, ?_⟩
  · intro c hc
    exact (calculateAutoZoom_inRange sqrt _ c hrun hc).2
  · intro zp inputSize f A cd hsv hm ha hcd hadm hW hH
    have hout := (calculateAutoZoom_inRange sqrt _
      { layer := A, cursorPos := getPositionAtFrame cd (toInt f), frameIndex := f }
      hrun hadm).2
    have hscale : 1 ≤ (processFrame sqrt zp inputSize f).1.scale := by
      rw [processFrame_scale, evalZoom_auto sqrt zp f A cd hm ha hcd, hsv]
      exact hout.1
    exact ⟨hscale, crop_inside_of_one_le_scale sqrt zp inputSize f hW hH hscale⟩

/-- Witness of C26: the two calls of `callsExample`, with `Rat.sqrt` for the square root,
leave a state with `lastX`, `lastY` in `[0,1]` and `lastScale ≥ 1`. -/
theorem autoZoom_invariant_witness :
    (runAutoZoom Rat.sqrt
      (setConfig (processorWith [] [layerAutoHalf])
        { type := ZoomType.Auto, manualLayers := [], autoLayers := [layerAutoHalf] }).smoothedValues
      callsExample).inRange :=
  (autoZoom_invariant Rat.sqrt (processorWith [] [layerAutoHalf])
    { type := ZoomType.Auto, manualLayers := [], autoLayers := [layerAutoHalf] } callsExample
    (by
      intro c hc
      simp only [callsExample, List.mem_cons, List.mem_singleton, List.not_mem_nil,
        or_false] at hc
      rcases hc with rfl | rfl <;>
        norm_num [AutoZoomCall.admissible, layerAutoHalf, cursorLeft, cursorCentre])).2.1

/-! ## The zoom type tag -/

theorem getPositionAtFrame_trackTwo_250 :
    getPositionAtFrame trackTwo (toInt 250)
      = { x := 1, y := 1, timestamp := 1000, cursorType := 65541 } := by
  have hti : toInt 250 = 250 := toInt_of_lt 250 (by norm_num)
  rw [hti]
  apply getPositionAtFrame_of_end trackTwo 250 _ (by simp [trackTwo])
  apply lowerBound_eq _ _ (by simp [SortedTrack, trackTwo]) _ (le_refl _)
  · intro j hj p hp
    have hj2 : j < 2 := by simpa [trackTwo] using hj
    have hj01 : j = 0 ∨ j = 1 := by omega
    rcases hj01 with rfl | rfl
    · simp [trackTwo] at hp
      subst hp
      norm_num [trackTwo]
    · simp [trackTwo] at hp
      subst hp
      norm_num [trackTwo]
  · intro p hp
    simp [trackTwo] at hp

/-- C21, counterexample: the configuration of `processorAutoType` has the type tag `Auto`
and frame 250 is covered by the manual layer `layerLong` and by the auto layer `layerAuto`;
`processFrame` takes scale 3 and pan target `(1/4, 3/4)` from the manual layer and leaves
the smoothing state untouched, while the auto layer would give the pan target x
`13/20`. -/
theorem processFrame_type_counterexample :
    processorAutoType.config.type = ZoomType.Auto ∧
    layerLong.covers 250 ∧ layerAuto.covers 250 ∧
    (processFrame sqrtStub processorAutoType (1920, 1080) 250).1.scale = 3 ∧
    (processFrame sqrtStub processorAutoType (1920, 1080) 250).1.targetX = 1 / 4 ∧
    (processFrame sqrtStub processorAutoType (1920, 1080) 250).1.targetY = 3 / 4 ∧
    (processFrame sqrtStub processorAutoType (1920, 1080) 250).2.smoothedValues
      = processorAutoType.smoothedValues ∧
    (calculateAutoZoom sqrtStub processorAutoType.smoothedValues layerAuto
      (getPositionAtFrame trackTwo (toInt 250)) 250).1.targetX = 13 / 20 := by
  have hL : getActiveManualLayer processorAutoType.config (toInt 250) = some layerLong := by
    simp [getActiveManualLayer, processorAutoType, toInt, layerLong]
  have hev := evalZoom_manual sqrtStub processorAutoType 250 layerLong hL
  have hms : manualScale layerLong 250 = 3 := by
    rw [manualScale_interior layerLong 250 (by simp [isInt32, layerLong])
      (by simp [isInt32, layerLong]) (by simp [layerLong]) (by simp [layerLong])]
    rfl
  refine ⟨rfl, by simp [ManualZoomLayer.covers, layerLong],
    by simp [AutoZoomLayer.covers, layerAuto], ?_, ?_, ?_, ?_, ?_⟩
  · rw [processFrame_scale, hev]
    exact hms
  · rw [processFrame_targetX, hev]
    rfl
  · rw [processFrame_targetY, hev]
    rfl
  · simp only [processFrame, evalZoom, hL]
  · rw [getPositionAtFrame_trackTwo_250]
    have h1 : ¬ ((250 : Nat) ≤ toULong (layerAuto.startFrame + TRANSITION_FRAMES)) := by
      simp [toULong, layerAuto, TRANSITION_FRAMES]
    have h2 : ¬ ((250 : Nat) ≥ toULong (layerAuto.endFrame - TRANSITION_FRAMES)) := by
      simp [toULong, layerAuto, TRANSITION_FRAMES]
    unfold calculateAutoZoom
    simp only [h1, h2, if_false]
    norm_num [smoothValue, processorAutoType, layerAuto]

/-- C21, amended: `processFrame` does not read the type tag: replacing it by any value
changes neither the computed frame values nor the smoothing state; and at every frame
where a manual layer is active (covered by an auto layer or not), scale and pan target are
those of the first matching manual layer and the smoothing state is left unchanged,
whatever the tag. -/
theorem processFrame_type_irrelevant (sqrt : ℚ → ℚ) (zp : ZoomProcessor)
    (inputSize : Int × Int) (frameIndex : Nat) (ty : ZoomType) :
    (processFrame sqrt { zp with config := { zp.config with type := ty } } inputSize
        frameIndex).1 = (processFrame sqrt zp inputSize frameIndex).1 ∧
    (processFrame sqrt { zp with config := { zp.config with type := ty } } inputSize
        frameIndex).2.smoothedValues
      = (processFrame sqrt zp inputSize frameIndex).2.smoothedValues ∧
    (∀ L : ManualZoomLayer,
      getActiveManualLayer zp.config (toInt frameIndex) = some L →
      (processFrame sqrt { zp with config := { zp.config with type := ty } } inputSize
        frameIndex).1.scale = manualScale L frameIndex ∧
      (processFrame sqrt { zp with config := { zp.config with type := ty } } inputSize
        frameIndex).1.targetX = L.targetX ∧
      (processFrame sqrt { zp with config := { zp.config with type := ty } } inputSize
        frameIndex).1.targetY = L.targetY ∧
      (processFrame sqrt { zp with config := { zp.config with type := ty } } inputSize
        frameIndex).2.smoothedValues = zp.smoothedValues) := by
  refine ⟨rfl, rfl, ?_⟩
  intro L hL
  have hev := evalZoom_manual sqrt zp frameIndex L hL
  have h1 : (processFrame sqrt { zp with config := { zp.config with type := ty } } inputSize
      frameIndex).1 = (processFrame sqrt zp inputSize frameIndex).1 := rfl
  have h2 : (processFrame sqrt { zp with config := { zp.config with type := ty } } inputSize
      frameIndex).2.smoothedValues = (processFrame sqrt zp inputSize frameIndex).2.smoothedValues :=
    rfl
  rw [h1, h2, processFrame_scale, processFrame_targetX, processFrame_targetY, hev]
  refine ⟨rfl, rfl, rfl, ?_⟩
  simp only [processFrame, evalZoom, hL]

/-- Witness of C21 amended: frame 250 of `processorWith [layerLong] [layerAuto]` with the
tag set to `Auto`: the pan target is the manual layer's `(1/4, 3/4)`. -/
theorem processFrame_type_irrelevant_witness :
    (processFrame sqrtStub
        { processorWith [layerLong] [layerAuto] with
          config := { (processorWith [layerLong] [layerAuto]).config with type := ZoomType.Auto } }
        (1920, 1080) 250).1.targetX = layerLong.targetX ∧
    (processFrame sqrtStub
        { processorWith [layerLong] [layerAuto] with
          config := { (processorWith [layerLong] [layerAuto]).config with type := ZoomType.Auto } }
        (1920, 1080) 250).1.targetY = layerLong.targetY :=
  ⟨((processFrame_type_irrelevant sqrtStub (processorWith [layerLong] [layerAuto])
      (1920, 1080) 250 ZoomType.Auto).2.2 layerLong
      (by simp [getActiveManualLayer, processorWith, toInt, layerLong])).2.1,
   ((processFrame_type_irrelevant sqrtStub (processorWith [layerLong] [layerAuto])
      (1920, 1080) 250 ZoomType.Auto).2.2 layerLong
      (by simp [getActiveManualLayer, processorWith, toInt, layerLong])).2.2.1⟩

/-! ## The fallback cursor type -/

/-- Whatever the state and the requested type, the type drawn by `overlay` is the
requested one or 65541. -/
theorem resolveCursorType_cases (st : CursorOverlay) (cursorType t : Int)
    (h : resolveCursorType st cursorType = some t) : t = cursorType ∨ t = 65541 := by
  unfold resolveCursorType at h
  split_ifs at h
  · exact Or.inr (Option.some.inj h).symm
  · exact Or.inl (Option.some.inj h).symm

/-- C24, the code at the failing input: with all five sprites loaded, a request for the
unknown cursor type 12345 is drawn with the sprite of type 65541, which `loadCursors` maps
to `textcursor.svg`; the file `default.svg` of the normal arrow cursor belongs to type
65539, the cursor type that an empty track returns. -/
theorem overlay_fallback_is_text_cursor :
    resolveCursorType overlayAllLoaded 12345 = some 65541 ∧
    overlay resizerNearest overlayAllLoaded frameDark 500 500 12345 1
      = overlayResolved resizerNearest overlayAllLoaded frameDark 500 500 65541 1 ∧
    cursorFileOf 65541 = some CursorFile.textcursor_svg ∧
    cursorFileOf 65539 = some CursorFile.default_svg ∧
    (getPositionAtFrame trackEmpty 0).cursorType = 65539 ∧
    cursorFileOf (getPositionAtFrame trackEmpty 0).cursorType ≠ cursorFileOf 65541 := by
  have hres : resolveCursorType overlayAllLoaded 12345 = some 65541 := by
    have h1 : (overlayAllLoaded.cursors 12345).isNone = true := by
      simp [overlayAllLoaded, loadCursors, loadCursorsLoop, cursorFiles, loadCursor,
        filesExcept, mapSet, CursorOverlay.init]
    have h2 : (overlayAllLoaded.cursors 65541).isNone = false := by
      simp [overlayAllLoaded, loadCursors, loadCursorsLoop, cursorFiles, loadCursor,
        filesExcept, mapSet, CursorOverlay.init]
    simp [resolveCursorType, overlayAllLoaded_isLoaded, h1, h2]
  refine ⟨hres, overlay_of_resolve_some _ _ _ _ _ _ _ _ hres, ?_, ?_, ?_, ?_⟩
  · simp [cursorFileOf]
  · simp [cursorFileOf]
  · rfl
  · simp [cursorFileOf, getPositionAtFrame, trackEmpty]

end OpenScreenStudio
